import Mathlib

/-!
Verification of the zavora-erp order-fulfillment and cost-allocation core.

The Rust sources under crates/zavora-ops/src/main.rs (order fulfillment:
skill routing/execution, AVCO inventory, journal posting, settlement) and
crates/zavora-gateway/src/main.rs (periodic cost allocation, reconciliation,
AP settlement) are shallowly embedded below.

Modelling conventions, fixed once for the whole file:
* `rust_decimal::Decimal` values are exact rationals `ℚ`; `round_dp(d)`
  (default strategy `MidpointNearestEven`, banker's rounding) is `roundDp d`.
* UUIDs are modelled as `ℕ` identifiers; freshly generated `Uuid::new_v4()`
  primary keys that are never read back by the embedded logic are omitted.
* Wall-clock timestamps (`Utc::now()`) that are only stored for audit
  (`created_at`, `posted_at`, `completed_at`, `due_at`, `settled_at`) are
  omitted; timestamps that the logic branches on (`occurred_at`,
  `fulfilled_at`, subscription windows) are `Int` epoch seconds.
* A SQL transaction is a pure state transformer; an early `return Err(..)`
  before `tx.commit()` is a rollback and is modelled as an error result
  carrying no new state.
-/

namespace Zavora

set_option maxRecDepth 100000

/-! ## Decimal rounding (rust_decimal round_dp, MidpointNearestEven) -/


/-- Round a rational to the nearest integer, ties to even
(`rust_decimal` `RoundingStrategy::MidpointNearestEven`, the default used by
`Decimal::round_dp`).  Uses the executable `Rat.floor`. -/

def roundHalfEven (x : ℚ) : ℤ :=
  let f := x.floor
  let frac := x - (f : ℚ)
  if frac < 1/2 then f
  else if 1/2 < frac then f + 1
  else if f % 2 = 0 then f else f + 1

/-- `Decimal::round_dp(d)`: round to `d` decimal places, banker's rounding. -/

def roundDp (d : ℕ) (x : ℚ) : ℚ :=
  (roundHalfEven (x * (10 : ℚ) ^ d) : ℚ) / (10 : ℚ) ^ d

/-- Shorthand for the ubiquitous `round_dp(4)` of the sources. -/

def round4 (x : ℚ) : ℚ := roundDp 4 x

/-- `x` is representable with at most 4 decimal places (a `Decimal` of scale
at most 4, the scale every persisted amount in the sources is rounded to). -/

def Dp4 (x : ℚ) : Prop := ∃ n : ℤ, x = (n : ℚ) / 10 ^ 4

/-! ## Generic list helpers

The SQL `ORDER BY`, `DISTINCT`/`GROUP BY` and `DELETE ... WHERE` clauses of
the sources are modelled with explicit insertion sort, first-occurrence
deduplication and `List.filter`. -/


/-- Insert into a list sorted by the boolean relation `le` (insertion step of
insertion sort). -/

def insertBy (le : α → α → Bool) (a : α) : List α → List α
  | [] => [a]
  | b :: l => if le a b then a :: b :: l else b :: insertBy le a l

/-- Insertion sort by the boolean relation `le`; models SQL `ORDER BY`. -/

def sortBy (le : α → α → Bool) : List α → List α
  | [] => []
  | a :: l => insertBy le a (sortBy le l)

/-- First-occurrence deduplication worker; `seen` accumulates emitted keys. -/

def dedupAux [BEq α] (seen : List α) : List α → List α
  | [] => []
  | a :: l => if seen.contains a then dedupAux seen l else a :: dedupAux (a :: seen) l

/-- Keep the first occurrence of each element; models SQL grouping keys. -/

def dedup [BEq α] (l : List α) : List α := dedupAux [] l

/-! ## Order fulfillment worker (crates/zavora-ops/src/main.rs)

The skill-execution state machine (`execute_skill_plan` / `invoke_skill`),
the AVCO inventory ledger (`ensure_inventory_for_order`), the journal poster
and the settlement recorder (`process_order`).  The skill registry and the
resolved routing policy are read-only configuration and enter as an
environment; `simulate_skill_execution` (the in-repo stand-in for the
external skill-capability boundary) is embedded as written.  The
`agent_semantic_memory` recall/write side channel of `process_order` is
observational logging only (never read back by the fulfillment decision
logic) and is omitted. -/


inductive TransactionType
  | product
  | service
deriving DecidableEq

def TransactionType.asStr : TransactionType → String
  | .product => "PRODUCT"
  | .service => "SERVICE"

structure SkillExecutionContext where
  orderId : ℕ
  itemCode : String
  quantity : ℚ
  unitPrice : ℚ
  currency : String
  transactionType : TransactionType
deriving DecidableEq

structure SkillRoutingPolicy where
  intent : String
  capability : String
  primarySkillId : String
  primarySkillVersion : String
  fallbackSkillId : Option String
  fallbackSkillVersion : Option String
  maxRetries : Int
  escalationActionType : String
deriving DecidableEq

/-- A `skill_registry` row: capability, approval status and the declared
required input/output field names. -/

structure RegistryEntry where
  capability : String
  approvalStatus : String
  requiredInputFields : List String
  requiredOutputFields : List String
deriving DecidableEq

/-- The `skill_registry` table, keyed by (skill_id, skill_version). -/

def Registry := String → String → Option RegistryEntry

/-- One appended `skill_invocations` row (the fields the logic reads or the
claims count; hashes, latency and the actor id are write-only audit). -/

structure SkillInvocationRow where
  attemptNo : Int
  skillId : String
  skillVersion : String
  status : String
  failureReason : Option String
  fallbackUsed : Bool
deriving DecidableEq

/-- One `governance_escalations` row as inserted by `insert_skill_escalation`
(reference_type ORDER, status PENDING, reason_code SKILL_RUNTIME_FAILURE). -/

structure EscalationRow where
  actionType : String
  referenceOrderId : ℕ
  reasonCode : String
  amount : ℚ
  currency : String
  decisionNote : String
deriving DecidableEq

/-- Embeds `build_skill_input_payload`: every value of the JSON object is a
JSON string, so the payload is a string-keyed, string-valued association
list. -/

def buildSkillInputPayload (ctx : SkillExecutionContext)
    (policy : SkillRoutingPolicy) : List (String × String) :=
  [("order_id", toString ctx.orderId),
   ("intent", policy.intent),
   ("capability", policy.capability),
   ("transaction_type", ctx.transactionType.asStr),
   ("item_code", ctx.itemCode),
   ("quantity", toString ctx.quantity),
   ("unit_price", toString ctx.unitPrice),
   ("currency", ctx.currency)]

/-- Embeds `validate_required_fields`: first failure reason, if any.  The
null check of the source can never fire on the payloads built here (all
values are JSON strings), so only presence and non-emptiness after trim are
checked. -/

def validateRequiredFields (payload : List (String × String))
    (required : List String) (kind : String) : Option String :=
  match required with
  | [] => none
  | f :: rest =>
    match payload.lookup f with
    | none => some (kind ++ " contract missing required field '" ++ f ++ "'")
    | some v =>
      if v.trim.isEmpty then
        some (kind ++ " contract field '" ++ f ++ "' is empty")
      else
        validateRequiredFields payload rest kind

/-- Substring test, modelling Rust `str::contains` for a non-empty pattern. -/

def strContains (s pat : String) : Bool := (s.splitOn pat).length ≠ 1

/-- Embeds `simulate_skill_execution`: forced failure markers in the
(uppercased) item code, otherwise a fixed success payload. -/

def simulateSkillExecution (ctx : SkillExecutionContext) (skillId : String)
    (fallbackUsed : Bool) : Except String (List (String × String)) :=
  let marker := ctx.itemCode.toUpper
  if strContains marker "FAILALL" then
    .error "forced skill failure marker FAILALL encountered"
  else if strContains marker "FAILPRIMARY" &&
      ((ctx.transactionType == .product && skillId == "product-fulfillment"
          && !fallbackUsed) ||
       (ctx.transactionType == .service && skillId == "service-delivery"
          && !fallbackUsed)) then
    .error "forced primary skill failure marker FAILPRIMARY encountered"
  else
    let mode := if fallbackUsed then "SAFE" else "AUTO"
    if ctx.transactionType == .product then
      .ok [("execution_status", "SUCCESS"), ("fulfillment_mode", mode),
           ("inventory_strategy", "AVCO")]
    else
      .ok [("execution_status", "SUCCESS"), ("delivery_mode", mode),
           ("service_strategy", "STANDARD")]

/-- The failure reason of one `invoke_skill` attempt (`none` = success):
registry lookup, approval check, capability check, required-input check,
execution, required-output check — in source order.  The outcome does not
depend on the attempt number. -/

def invokeOutcomeFailure (reg : Registry) (ctx : SkillExecutionContext)
    (policy : SkillRoutingPolicy) (skillId skillVersion : String)
    (fallbackUsed : Bool) : Option String :=
  let payload := buildSkillInputPayload ctx policy
  match reg skillId skillVersion with
  | none => some ("skill " ++ skillId ++ "@" ++ skillVersion ++ " is not registered")
  | some row =>
    if row.approvalStatus ≠ "APPROVED" then
      some ("skill " ++ skillId ++ "@" ++ skillVersion ++
        " is not approved (status=" ++ row.approvalStatus ++ ")")
    else if row.capability ≠ policy.capability then
      some ("capability mismatch for " ++ skillId ++ "@" ++ skillVersion ++
        ": expected " ++ policy.capability ++ ", got " ++ row.capability)
    else
      match validateRequiredFields payload row.requiredInputFields "input" with
      | some e => some e
      | none =>
        match simulateSkillExecution ctx skillId fallbackUsed with
        | .error e => some e
        | .ok output =>
          validateRequiredFields output row.requiredOutputFields "output"

/-- The `skill_invocations` row written by one `invoke_skill` call. -/

def invocationRowFor (skillId skillVersion : String) (attemptNo : Int)
    (fallbackUsed : Bool) (failure : Option String) : SkillInvocationRow :=
  { attemptNo := attemptNo, skillId := skillId, skillVersion := skillVersion,
    status := if failure.isNone then "SUCCESS" else "FAILED",
    failureReason := failure, fallbackUsed := fallbackUsed }

/-- The `for _ in 0..=policy.max_retries` primary loop of
`execute_skill_plan`: `k` iterations remain, `n` is the current attempt_no.
Returns the invocation rows written and whether an attempt succeeded (the
early return of the source loop). -/

def primaryRows (reg : Registry) (ctx : SkillExecutionContext)
    (policy : SkillRoutingPolicy) : ℕ → Int → List SkillInvocationRow × Bool
  | 0, _ => ([], false)
  | k + 1, n =>
    match invokeOutcomeFailure reg ctx policy policy.primarySkillId
        policy.primarySkillVersion false with
    | none =>
      ([invocationRowFor policy.primarySkillId policy.primarySkillVersion n
          false none], true)
    | some reason =>
      let rest := primaryRows reg ctx policy k (n + 1)
      (invocationRowFor policy.primarySkillId policy.primarySkillVersion n
          false (some reason) :: rest.1, rest.2)

/-- Embeds `execute_skill_plan`.  Result: the appended `skill_invocations`
rows, the created `governance_escalations` rows, and `some reason` when the
plan ended in `SkillEscalatedError reason` (`none` = success, fulfillment
proceeds).  The source's final ESCALATED invocation row stores
`"{reason}; escalation_id={uuid}"`; the generated UUID is omitted here and
the underlying reason kept. -/

def executeSkillPlan (reg : Registry) (ctx : SkillExecutionContext)
    (policy : SkillRoutingPolicy) :
    List SkillInvocationRow × List EscalationRow × Option String :=
  let primaryCount := (policy.maxRetries + 1).toNat
  let prim := primaryRows reg ctx policy primaryCount 1
  if prim.2 then (prim.1, [], none)
  else
    let attemptNo : Int := 1 + primaryCount
    let primaryReason :=
      if primaryCount = 0 then "unknown skill runtime failure"
      else
        ((invokeOutcomeFailure reg ctx policy policy.primarySkillId
            policy.primarySkillVersion false).getD "primary skill failed")
    match policy.fallbackSkillId, policy.fallbackSkillVersion with
    | some fid, some fver =>
      match invokeOutcomeFailure reg ctx policy fid fver true with
      | none =>
        (prim.1 ++ [invocationRowFor fid fver attemptNo true none], [], none)
      | some freason =>
        (prim.1 ++ [invocationRowFor fid fver attemptNo true (some freason),
            { attemptNo := attemptNo, skillId := fid, skillVersion := fver,
              status := "ESCALATED", failureReason := some freason,
              fallbackUsed := true }],
         [{ actionType := policy.escalationActionType,
            referenceOrderId := ctx.orderId,
            reasonCode := "SKILL_RUNTIME_FAILURE",
            amount := round4 (ctx.quantity * ctx.unitPrice),
            currency := ctx.currency, decisionNote := freason }],
         some freason)
    | _, _ =>
      (prim.1 ++
        [{ attemptNo := attemptNo,
           skillId := policy.primarySkillId,
           skillVersion := policy.primarySkillVersion,
           status := "ESCALATED", failureReason := some primaryReason,
           fallbackUsed := false }],
       [{ actionType := policy.escalationActionType,
          referenceOrderId := ctx.orderId,
          reasonCode := "SKILL_RUNTIME_FAILURE",
          amount := round4 (ctx.quantity * ctx.unitPrice),
          currency := ctx.currency, decisionNote := primaryReason }],
       some primaryReason)

/-- An `orders` row as read by `process_order` (transaction_type already
parsed; `COALESCE(transaction_type, 'PRODUCT')` happens in SQL). -/

structure OrderRecord where
  orderId : ℕ
  itemCode : String
  quantity : ℚ
  unitPrice : ℚ
  currency : String
  customerEmail : String
  transactionType : TransactionType
deriving DecidableEq

/-- The environment of one fulfillment unit: skill registry, the routing
policy resolved by `resolve_skill_routing_policy` (a read-only configuration
lookup), and the `inventory_positions` row (on_hand, avg_cost) per
item_code. -/

structure OpsEnv where
  registry : Registry
  policyFor : TransactionType → Option SkillRoutingPolicy
  inventory : String → Option (ℚ × ℚ)

/-- The `SkillExecutionContext` built inside `process_order`. -/

def contextFor (order : OrderRecord) : SkillExecutionContext :=
  { orderId := order.orderId, itemCode := order.itemCode,
    quantity := order.quantity, unitPrice := order.unitPrice,
    currency := order.currency, transactionType := order.transactionType }

/-- One appended `journals` row. -/

structure JournalLine where
  account : String
  debit : ℚ
  credit : ℚ
  memo : String
deriving DecidableEq

/-- One appended `inventory_movements` row. -/

structure MovementRow where
  movementType : String
  itemCode : String
  quantity : ℚ
  unitCost : ℚ
deriving DecidableEq

/-- `service_delivery_cost_ratio()` = `Decimal::new(3000, 4)` = 30.00%. -/

def serviceDeliveryCostRatio : ℚ := 3000 / 10 ^ 4

/-- Embeds `ensure_inventory_for_order`.  Input: the current
`inventory_positions` row (absent rows are initialised to zero), the
requested quantity and the unit price.  Output: the (on_hand, avg_cost) the
caller sees after auto-procurement, and the RECEIPT movements recorded.
Procurement unit cost is `unit_price * Decimal::new(60, 2)` rounded to 4dp;
the new average is the weighted mean rounded to 4dp. -/

def ensureInventoryForOrder (pos : Option (ℚ × ℚ))
    (requestedQty unitPrice : ℚ) (itemCode : String) :
    (ℚ × ℚ) × List MovementRow :=
  let onHand := (pos.getD (0, 0)).1
  let avgCost := (pos.getD (0, 0)).2
  if onHand < requestedQty then
    let shortage := requestedQty - onHand
    let procurementUnitCost := round4 (unitPrice * (60 / 100))
    let currentValue := onHand * avgCost
    let incomingValue := shortage * procurementUnitCost
    let newQty := onHand + shortage
    let newAvg := if newQty = 0 then 0
      else round4 ((currentValue + incomingValue) / newQty)
    ((newQty, newAvg),
     [{ movementType := "RECEIPT", itemCode := itemCode,
        quantity := shortage, unitCost := procurementUnitCost }])
  else
    ((onHand, avgCost), [])

/-- The fixed six-line journal batch posted by `process_order`: AR/Revenue,
COGS/(Inventory or Service-cost-clearing), Cash/AR — account constants
1100, 4000, 5000, 1300, 2100, 1000 as in the source. -/

def journalBatch (tt : TransactionType) (revenue cogs : ℚ) :
    List JournalLine :=
  [{ account := "1100", debit := revenue, credit := 0, memo := "Invoice posted" },
   { account := "4000", debit := 0, credit := revenue, memo := "Revenue recognized" },
   { account := "5000", debit := cogs, credit := 0, memo := "COGS recognized" },
   (match tt with
    | .product =>
      { account := "1300", debit := 0, credit := cogs,
        memo := "Inventory relieved" }
    | .service =>
      { account := "2100", debit := 0, credit := cogs,
        memo := "Service delivery cost recognized" }),
   { account := "1000", debit := revenue, credit := 0, memo := "Cash receipt" },
   { account := "1100", debit := 0, credit := revenue, memo := "AR settled" }]

/-- Everything one committed fulfillment transaction wrote for the order. -/

structure ProcessEffects where
  invocations : List SkillInvocationRow
  escalations : List EscalationRow
  journals : List JournalLine
  movements : List MovementRow
  settlements : List ℚ
  orderStatus : String
  failureReason : Option String
  inventoryAfter : Option (ℚ × ℚ)
  revenue : ℚ
  cogs : ℚ
deriving DecidableEq

/-- Result of `process_order`: `aborted` is an error before `tx.commit()`
(full rollback, no persisted effects); `committed` carries the persisted
effects — either the escalation path (order FAILED committed) or the full
fulfillment path (order FULFILLED committed). -/

inductive ProcessResult
  | aborted (err : String)
  | committed (eff : ProcessEffects)
deriving DecidableEq

/-- The `orders.failure_reason` written on the escalated path:
`SkillEscalatedError`'s display, with the generated escalation UUID
omitted. -/

def escalatedMessage (reason : String) : String :=
  "skill execution failed and escalated: " ++ reason

/-- The effects committed on the escalated path of `process_order`: the
invocation and escalation rows written by the plan, the FAILED order update
with the `SkillEscalatedError` reason — and nothing else (no journal,
movement or settlement statement ran before the early commit). -/

def escalatedEffects (env : OpsEnv) (order : OrderRecord)
    (rows : List SkillInvocationRow) (escs : List EscalationRow)
    (reason : String) : ProcessEffects :=
  { invocations := rows, escalations := escs, journals := [],
    movements := [], settlements := [], orderStatus := "FAILED",
    failureReason := some (escalatedMessage reason),
    inventoryAfter := env.inventory order.itemCode,
    revenue := 0, cogs := 0 }

/-- The fulfillment tail of `process_order` after a successful skill plan:
AVCO inventory issue with auto-procurement (PRODUCT), COGS computation, the
six-line journal batch, the settlement row and the FULFILLED transition. -/

def fulfillEffects (env : OpsEnv) (order : OrderRecord)
    (rows : List SkillInvocationRow) (escs : List EscalationRow) :
    ProcessResult :=
  let revenue := round4 (order.quantity * order.unitPrice)
  match order.transactionType with
  | .product =>
    let ens := ensureInventoryForOrder (env.inventory order.itemCode)
      order.quantity order.unitPrice order.itemCode
    let onHand := ens.1.1
    let avgCost := ens.1.2
    if onHand < order.quantity then
      .aborted "inventory still insufficient after procurement"
    else
      let remainingQty := onHand - order.quantity
      let cogs := round4 (order.quantity * avgCost)
      .committed
        { invocations := rows, escalations := escs,
          journals := journalBatch .product revenue cogs,
          movements := ens.2 ++
            [{ movementType := "ISSUE", itemCode := order.itemCode,
               quantity := order.quantity, unitCost := avgCost }],
          settlements := [revenue], orderStatus := "FULFILLED",
          failureReason := none,
          inventoryAfter := some (remainingQty, avgCost),
          revenue := revenue, cogs := cogs }
  | .service =>
    let cogs := round4
      (order.quantity * order.unitPrice * serviceDeliveryCostRatio)
    .committed
      { invocations := rows, escalations := escs,
        journals := journalBatch .service revenue cogs,
        movements := [], settlements := [revenue],
        orderStatus := "FULFILLED", failureReason := none,
        inventoryAfter := env.inventory order.itemCode,
        revenue := revenue, cogs := cogs }

/-- Embeds `process_order` (one atomic fulfillment unit): quantity/price
validation, skill plan execution, then either the committed escalation path
or the fulfillment tail. -/

def processOrder (env : OpsEnv) (order : OrderRecord) : ProcessResult :=
  if order.quantity ≤ 0 ∨ order.unitPrice ≤ 0 then
    .aborted "order has invalid quantity or price"
  else
    match env.policyFor order.transactionType with
    | none => .aborted "skill routing policy not configured"
    | some policy =>
      match executeSkillPlan env.registry (contextFor order) policy with
      | (rows, escs, some reason) =>
        .committed (escalatedEffects env order rows escs reason)
      | (rows, escs, none) => fulfillEffects env order rows escs

/-! Projections of a `ProcessResult`; on `aborted` (rolled-back) results they
return the empty/zero persisted state. -/


def resultInvocations : ProcessResult → List SkillInvocationRow
  | .committed e => e.invocations
  | .aborted _ => []

def resultEscalations : ProcessResult → List EscalationRow
  | .committed e => e.escalations
  | .aborted _ => []

def resultJournals : ProcessResult → List JournalLine
  | .committed e => e.journals
  | .aborted _ => []

def resultMovements : ProcessResult → List MovementRow
  | .committed e => e.movements
  | .aborted _ => []

def resultSettlements : ProcessResult → List ℚ
  | .committed e => e.settlements
  | .aborted _ => []

/-- The order status written by the committed unit; "" when nothing was
committed. -/

def resultOrderStatus : ProcessResult → String
  | .committed e => e.orderStatus
  | .aborted _ => ""

def resultFailureReason : ProcessResult → Option String
  | .committed e => e.failureReason
  | .aborted _ => none

def resultInventoryAfter : ProcessResult → Option (ℚ × ℚ)
  | .committed e => e.inventoryAfter
  | .aborted _ => none

def resultRevenue : ProcessResult → ℚ
  | .committed e => e.revenue
  | .aborted _ => 0

def resultCogs : ProcessResult → ℚ
  | .committed e => e.cogs
  | .aborted _ => 0

/-! Concrete fixtures: a small approved skill registry, routing policies and
orders replaying the source's own configuration (skill ids
`product-fulfillment` / `backup-fulfillment`, intent
`ORDER_EXECUTION_PRODUCT`, capability `fulfillment-execution`) used to
instantiate the theorems below on explicit inputs. -/


def regFix : Registry := fun sid sver =>
  if sid == "product-fulfillment" && sver == "1.0.0" then
    some { capability := "fulfillment-execution",
           approvalStatus := "APPROVED",
           requiredInputFields := ["order_id", "item_code", "quantity"],
           requiredOutputFields := ["execution_status", "fulfillment_mode"] }
  else if sid == "backup-fulfillment" && sver == "1.0.0" then
    some { capability := "fulfillment-execution",
           approvalStatus := "APPROVED",
           requiredInputFields := ["order_id", "item_code", "quantity"],
           requiredOutputFields := ["execution_status", "fulfillment_mode"] }
  else none

/-- Product routing policy with no fallback and `max_retries = 0`. -/

def policyNoFallback : SkillRoutingPolicy :=
  { intent := "ORDER_EXECUTION_PRODUCT",
    capability := "fulfillment-execution",
    primarySkillId := "product-fulfillment",
    primarySkillVersion := "1.0.0",
    fallbackSkillId := none, fallbackSkillVersion := none,
    maxRetries := 0, escalationActionType := "ORDER_EXECUTION_PRODUCT" }

/-- Product routing policy with fallback `backup-fulfillment` and
`max_retries = 2`. -/

def policyWithFallback : SkillRoutingPolicy :=
  { intent := "ORDER_EXECUTION_PRODUCT",
    capability := "fulfillment-execution",
    primarySkillId := "product-fulfillment",
    primarySkillVersion := "1.0.0",
    fallbackSkillId := some "backup-fulfillment",
    fallbackSkillVersion := some "1.0.0",
    maxRetries := 2, escalationActionType := "ORDER_EXECUTION_PRODUCT" }

/-- Environment with an empty inventory and the no-fallback policy. -/

def envNoFallback : OpsEnv :=
  { registry := regFix,
    policyFor := fun tt =>
      match tt with
      | .product => some policyNoFallback
      | .service => none,
    inventory := fun _ => none }

/-- Environment with an empty inventory and the fallback policy. -/

def envWithFallback : OpsEnv :=
  { registry := regFix,
    policyFor := fun tt =>
      match tt with
      | .product => some policyWithFallback
      | .service => none,
    inventory := fun _ => none }

/-- PRODUCT order, quantity 2 at unit price 50.00, plain item code (the
happy-path end-to-end fixture of the spec). -/

def orderWidget : OrderRecord :=
  { orderId := 1, itemCode := "WIDGET-1", quantity := 2, unitPrice := 50,
    currency := "USD", customerEmail := "buyer@example.com",
    transactionType := .product }

/-- PRODUCT order whose item code carries the `FAILALL` marker: every skill
attempt fails inside `simulate_skill_execution`. -/

def orderFailAll : OrderRecord :=
  { orderId := 2, itemCode := "FAILALL-WIDGET", quantity := 2, unitPrice := 50,
    currency := "USD", customerEmail := "buyer@example.com",
    transactionType := .product }

/-- PRODUCT order whose item code carries the `FAILPRIMARY` marker: the
primary `product-fulfillment` skill always fails, a fallback succeeds. -/

def orderFailPrimary : OrderRecord :=
  { orderId := 3, itemCode := "FAILPRIMARY-WIDGET", quantity := 2,
    unitPrice := 50, currency := "USD",
    customerEmail := "buyer@example.com", transactionType := .product }

/-! ## Cost allocation engine (crates/zavora-gateway/src/main.rs)

`allocate_costs` and its helpers: remainder-absorbing proration across
fulfilled orders (`allocate_input_cost`), the per-order split across skills
(`split_amount_by_skill`), idempotent regeneration for a period key, payroll
journal/AP generation and the period reconciliation upsert, plus the generic
AP settlement (`settle_ap_internal`). -/


/-- One eligible order as returned by `list_fulfilled_orders`:
its id and `round_dp(quantity * unit_price, 4)` revenue. -/

structure FulfilledOrder where
  orderId : ℕ
  revenue : ℚ
deriving DecidableEq

/-- One `AllocationInput` built by `allocate_costs` from a TOKEN, CLOUD or
SUBSCRIPTION source row (amount already rounded to 4dp at construction). -/

structure AllocationInput where
  sourceType : String
  sourceId : ℕ
  orderId : Option ℕ
  amount : ℚ
  currency : String
  agentId : Option String
  skillId : Option String
deriving DecidableEq

/-- The remainder-absorbing proration loop shared by the revenue-share
branch of `allocate_input_cost` and by `split_amount_by_skill`: every
element but the last gets `round4(amount * weight / totalW)`, the rounded
remainder is tracked, and the last element absorbs it. -/

def distributeByWeight (amount totalW : ℚ) :
    ℚ → List (α × ℚ) → List (α × ℚ)
  | _, [] => []
  | remaining, [(a, _)] => [(a, round4 remaining)]
  | remaining, (a, w) :: b :: l =>
    (a, round4 (amount * w / totalW)) ::
      distributeByWeight amount totalW
        (round4 (remaining - round4 (amount * w / totalW))) (b :: l)

/-- The equal-split loop of `allocate_input_cost` (Σrevenue = 0 case):
every element but the last gets the fixed `perOrder` share, the last
absorbs the rounded remainder. -/

def distributeEqual (perOrder : ℚ) : ℚ → List α → List (α × ℚ)
  | _, [] => []
  | remaining, [a] => [(a, round4 remaining)]
  | remaining, a :: b :: l =>
    (a, perOrder) :: distributeEqual perOrder (round4 (remaining - perOrder)) (b :: l)

/-- `total_revenue` of `allocate_input_cost`: rounded fold of the eligible
orders' revenues. -/

def totalRevenueOf (orders : List FulfilledOrder) : ℚ :=
  round4 ((orders.map (fun o => o.revenue)).sum)

/-- The per-order allocation list of `allocate_input_cost` (the
`allocations` vector): direct order, revenue share, or equal split. -/

def orderAllocations (orders : List FulfilledOrder)
    (input : AllocationInput) : List (ℕ × ℚ × String) :=
  match input.orderId with
  | some oid => [(oid, round4 input.amount, "DIRECT_ORDER")]
  | none =>
    if 0 < totalRevenueOf orders then
      (distributeByWeight input.amount (totalRevenueOf orders)
        (round4 input.amount)
        (orders.map (fun o => (o.orderId, o.revenue)))).map
        (fun p => (p.1, p.2, "REVENUE_SHARE"))
    else
      (distributeEqual (round4 (input.amount / (orders.length : ℚ)))
        (round4 input.amount) (orders.map (fun o => o.orderId))).map
        (fun p => (p.1, p.2, "REVENUE_SHARE"))

/-- The `weighted_skills` vector of `split_amount_by_skill`: queried
per-skill token costs re-filtered to positively-rounded ones. -/

def skillWeighted (weightRows : List (String × ℚ)) : List (String × ℚ) :=
  weightRows.filterMap (fun p =>
    if 0 < round4 p.2 then some (p.1, round4 p.2) else none)

/-- The weighted tail of `split_amount_by_skill` once no usable explicit
skill was supplied; falls back to a null-skill bucket when no positive
signal remains. -/

def splitBySkillWeights (weightRows : List (String × ℚ)) (amt : ℚ) :
    List (Option String × ℚ) :=
  if weightRows.isEmpty then [(none, amt)]
  else if (skillWeighted weightRows).isEmpty ∨
      ((skillWeighted weightRows).map (fun p => p.2)).sum ≤ 0 then
    [(none, amt)]
  else
    (distributeByWeight amt ((skillWeighted weightRows).map (fun p => p.2)).sum
      amt (skillWeighted weightRows)).map (fun p => (some p.1, p.2))

/-- Embeds `split_amount_by_skill`.  `weightRows` is the result of the
grouped `finops_token_usage` query for the order (positive per-skill sums,
ordered by skill id). -/

def splitAmountBySkill (weightRows : List (String × ℚ)) (amount : ℚ)
    (explicitSkillId : Option String) : List (Option String × ℚ) :=
  if round4 amount ≤ 0 then []
  else
    match explicitSkillId with
    | some sid =>
      if sid.trim = "" then splitBySkillWeights weightRows (round4 amount)
      else [(some sid.trim, round4 amount)]
    | none => splitBySkillWeights weightRows (round4 amount)

/-- One `finops_cost_allocations` row. -/

structure CostAllocationRow where
  periodStart : Int
  periodEnd : Int
  orderId : ℕ
  sourceType : String
  sourceId : ℕ
  agentId : Option String
  skillId : Option String
  allocationBasis : String
  allocatedCost : ℚ
  currency : String
deriving DecidableEq

/-- The (per-order entry, per-skill bucket) pairs `allocate_input_cost`
actually inserts: non-positive per-order amounts and non-positive skill
amounts are skipped by the source's `continue` guards. -/

def allocateKept (orders : List FulfilledOrder)
    (weightRowsFor : ℕ → List (String × ℚ)) (input : AllocationInput) :
    List ((ℕ × ℚ × String) × (Option String × ℚ)) :=
  (orderAllocations orders input).flatMap (fun entry =>
    if entry.2.1 ≤ 0 then []
    else
      ((splitAmountBySkill (weightRowsFor entry.1) entry.2.1
          input.skillId).filter (fun sk => !decide (sk.2 ≤ 0))).map
        (fun sk => (entry, sk)))

/-- Embeds `allocate_input_cost`: per-order proration, per-skill split, the
inserted `finops_cost_allocations` rows, and the returned `allocated_total`
(rounded sum of the inserted skill amounts). -/

def allocateInputCost (orders : List FulfilledOrder)
    (weightRowsFor : ℕ → List (String × ℚ)) (ps pe : Int)
    (input : AllocationInput) : List CostAllocationRow × ℚ :=
  if input.amount ≤ 0 then ([], 0)
  else
    ((allocateKept orders weightRowsFor input).map (fun q =>
      { periodStart := ps, periodEnd := pe, orderId := q.1.1,
        sourceType := input.sourceType, sourceId := input.sourceId,
        agentId := input.agentId, skillId := q.2.1,
        allocationBasis := q.1.2.2, allocatedCost := round4 q.2.2,
        currency := input.currency }),
     round4 (((allocateKept orders weightRowsFor input).map
       (fun q => q.2.2)).sum))

/-- Three equally-weighted fulfilled orders (the spec's 100.00 / 3 fixture). -/

def orders3 : List FulfilledOrder :=
  [{ orderId := 1, revenue := 10 }, { orderId := 2, revenue := 10 },
   { orderId := 3, revenue := 10 }]

/-- A 100.00 cost record with no explicit order and no skill signal. -/

def input100 : AllocationInput :=
  { sourceType := "TOKEN", sourceId := 1, orderId := none, amount := 100,
    currency := "USD", agentId := none, skillId := none }

/-- Twelve fulfilled orders with revenues 3,…,3,2 (total 35): each
non-last share of a 0.0007 record is 0.00006, which rounds up to 0.0001. -/

def orders12 : List FulfilledOrder :=
  [{ orderId := 1, revenue := 3 }, { orderId := 2, revenue := 3 },
   { orderId := 3, revenue := 3 }, { orderId := 4, revenue := 3 },
   { orderId := 5, revenue := 3 }, { orderId := 6, revenue := 3 },
   { orderId := 7, revenue := 3 }, { orderId := 8, revenue := 3 },
   { orderId := 9, revenue := 3 }, { orderId := 10, revenue := 3 },
   { orderId := 11, revenue := 3 }, { orderId := 12, revenue := 2 }]

/-- A 0.0007 cost record carrying an explicit skill (so the per-skill split
is the identity). -/

def input12 : AllocationInput :=
  { sourceType := "TOKEN", sourceId := 2, orderId := none,
    amount := 7 / 10 ^ 4, currency := "USD", agentId := none,
    skillId := some "llm" }

/-- The empty per-order skill-weight table (no token signal). -/

def wEmpty : ℕ → List (String × ℚ) := fun _ => []

/-! ## Database model for the allocation engine

Rows of the tables `allocate_costs` reads and writes.  `DateTime<Utc>`
values the engine compares (`occurred_at`, `fulfilled_at`, subscription
windows, the period bounds) are `Int` epoch seconds.  The period key
strings of the source — the journal memo prefix
`PAYROLL_ALLOC|{start}|{end}|{order}|…` matched with `LIKE`, and the
payroll counterparty `autonomy-payroll:auto:{start}|{end}` — are built from
RFC 3339 renderings, which are injective in the instants, so they are
modelled structurally as constructors carrying the period bounds. -/


structure TokenRow where
  id : ℕ
  occurredAt : Int
  orderId : Option ℕ
  agentId : Option String
  skillId : Option String
  totalCost : ℚ
  currency : String
deriving DecidableEq

structure CloudRow where
  id : ℕ
  occurredAt : Int
  orderId : Option ℕ
  totalCost : ℚ
  currency : String
deriving DecidableEq

structure SubRow where
  id : ℕ
  periodStart : Int
  periodEnd : Int
  totalCost : ℚ
  currency : String
deriving DecidableEq

structure OrderRow where
  id : ℕ
  status : String
  fulfilledAt : Option Int
  quantity : ℚ
  unitPrice : ℚ
deriving DecidableEq

/-- A journal memo: either the period/order-tagged payroll-allocation memo
(`PAYROLL_ALLOC|{period key}|{order}|{suffix}` and its `AP_SETTLE` variants)
or any other memo text. -/

inductive JMemo
  | payrollAlloc (ps pe : Int) (orderId : ℕ) (suffix : String)
  | other (s : String)
deriving DecidableEq

structure JRow where
  orderId : ℕ
  account : String
  debit : ℚ
  credit : ℚ
  memo : JMemo
deriving DecidableEq

/-- An AP counterparty: the generated `autonomy-payroll:auto:{period key}`
or any other counterparty string. -/

inductive Cpty
  | payrollAuto (ps pe : Int)
  | other (s : String)
deriving DecidableEq

structure ApObligationRow where
  orderId : ℕ
  sourceType : String
  counterparty : Cpty
  amount : ℚ
  currency : String
  status : String
deriving DecidableEq

structure ReconRow where
  periodStart : Int
  periodEnd : Int
  sourceTotal : ℚ
  allocatedTotal : ℚ
  journalTotal : ℚ
  varianceAmount : ℚ
  variancePct : ℚ
  ordersAllocated : ℕ
  status : String
deriving DecidableEq

/-- The tables touched by the engine.  The per-obligation subledger entries
and the semantic-memory rows written alongside are keyed by freshly
generated UUIDs and never read back by the engine, so they are omitted. -/

structure Db where
  orders : List OrderRow
  tokenRows : List TokenRow
  cloudRows : List CloudRow
  subRows : List SubRow
  allocations : List CostAllocationRow
  journals : List JRow
  apObligations : List ApObligationRow
  recons : List ReconRow
deriving DecidableEq

/-- Embeds `list_fulfilled_orders`: FULFILLED orders with `fulfilled_at`
inside `[ps, pe)`, ordered by id, carrying rounded revenue. -/

def listFulfilledOrders (db : Db) (ps pe : Int) : List FulfilledOrder :=
  sortBy (fun a b => decide (a.orderId ≤ b.orderId))
    ((db.orders.filter (fun o => o.status == "FULFILLED" &&
        (match o.fulfilledAt with
         | some t => decide (ps ≤ t) && decide (t < pe)
         | none => false))).map
      (fun o => { orderId := o.id, revenue := round4 (o.quantity * o.unitPrice) }))

/-- String order via `compare`, used to model SQL `ORDER BY skill_id`. -/

def strLe (a b : String) : Bool :=
  match compare a b with
  | .gt => false
  | _ => true

/-- Embeds the grouped `finops_token_usage` query of
`split_amount_by_skill`: token rows of the order inside the window carrying
a non-blank skill id, grouped by skill id (ordered), keeping groups with a
positive cost sum (the SQL `HAVING`). -/

def skillWeightRows (tokens : List TokenRow) (ps pe : Int) (oid : ℕ) :
    List (String × ℚ) :=
  (sortBy strLe (dedup ((tokens.filter (fun t =>
      t.orderId == some oid && decide (ps ≤ t.occurredAt) &&
      decide (t.occurredAt < pe) &&
      (match t.skillId with
       | some s => !(s.trim == "")
       | none => false))).filterMap (fun t => t.skillId)))).filterMap
    (fun sid =>
      if 0 < (((tokens.filter (fun t =>
          t.orderId == some oid && decide (ps ≤ t.occurredAt) &&
          decide (t.occurredAt < pe) &&
          (match t.skillId with
           | some s => !(s.trim == "")
           | none => false))).filter
          (fun t => t.skillId == some sid)).map (fun t => t.totalCost)).sum
      then
        some (sid, (((tokens.filter (fun t =>
          t.orderId == some oid && decide (ps ≤ t.occurredAt) &&
          decide (t.occurredAt < pe) &&
          (match t.skillId with
           | some s => !(s.trim == "")
           | none => false))).filter
          (fun t => t.skillId == some sid)).map (fun t => t.totalCost)).sum)
      else none)

def tokenLe (a b : TokenRow) : Bool :=
  if a.occurredAt = b.occurredAt then a.id ≤ b.id
  else a.occurredAt < b.occurredAt

def cloudLe (a b : CloudRow) : Bool :=
  if a.occurredAt = b.occurredAt then a.id ≤ b.id
  else a.occurredAt < b.occurredAt

def subLe (a b : SubRow) : Bool :=
  if a.periodStart = b.periodStart then a.id ≤ b.id
  else a.periodStart < b.periodStart

/-- The `AllocationInput`s `allocate_costs` processes, in source order:
in-window TOKEN rows, in-window CLOUD rows, then overlapping SUBSCRIPTION
rows prorated by `round8(overlap seconds / total seconds)`, skipping
non-positive spans (amounts rounded to 4dp as in the source). -/

def allocInputs (db : Db) (ps pe : Int) : List AllocationInput :=
  ((sortBy tokenLe (db.tokenRows.filter (fun t =>
      decide (ps ≤ t.occurredAt) && decide (t.occurredAt < pe)))).map
    (fun t =>
      { sourceType := "TOKEN", sourceId := t.id, orderId := t.orderId,
        amount := round4 t.totalCost, currency := t.currency,
        agentId := t.agentId, skillId := t.skillId })) ++
  ((sortBy cloudLe (db.cloudRows.filter (fun c =>
      decide (ps ≤ c.occurredAt) && decide (c.occurredAt < pe)))).map
    (fun c =>
      { sourceType := "CLOUD", sourceId := c.id, orderId := c.orderId,
        amount := round4 c.totalCost, currency := c.currency,
        agentId := none, skillId := none })) ++
  ((sortBy subLe (db.subRows.filter (fun r =>
      decide (r.periodStart < pe) && decide (ps < r.periodEnd)))).filterMap
    (fun r =>
      if r.periodEnd - r.periodStart ≤ 0 then none
      else if min r.periodEnd pe - max r.periodStart ps ≤ 0 then none
      else
        some
          { sourceType := "SUBSCRIPTION", sourceId := r.id, orderId := none,
            amount := round4 (r.totalCost *
              roundDp 8 (((min r.periodEnd pe - max r.periodStart ps : Int) : ℚ) /
                ((r.periodEnd - r.periodStart : Int) : ℚ))),
            currency := r.currency, agentId := none, skillId := none }))

/-- `source_total` before the final rounding: every processed input's
amount is accumulated, whether or not its allocation was skipped. -/

def sourceTotalOf (db : Db) (ps pe : Int) : ℚ :=
  ((allocInputs db ps pe).map (fun i => i.amount)).sum

/-- `allocated_total` before the final rounding. -/

def allocatedTotalOf (db : Db) (ps pe : Int) : ℚ :=
  ((allocInputs db ps pe).map (fun i =>
    (allocateInputCost (listFulfilledOrders db ps pe)
      (skillWeightRows db.tokenRows ps pe) ps pe i).2)).sum

/-- All `finops_cost_allocations` rows the run inserts, in insertion order. -/

def genAllocRows (db : Db) (ps pe : Int) : List CostAllocationRow :=
  (allocInputs db ps pe).flatMap (fun i =>
    (allocateInputCost (listFulfilledOrders db ps pe)
      (skillWeightRows db.tokenRows ps pe) ps pe i).1)

/-- The journal DELETE predicate of `allocate_costs`:
`order_id = ANY(eligible ids) AND memo LIKE 'PAYROLL_ALLOC|{period key}|%'`. -/

def jDeleteB (ps pe : Int) (orderIds : List ℕ) (j : JRow) : Bool :=
  orderIds.contains j.orderId &&
    (match j.memo with
     | .payrollAlloc a b _ _ => decide (a = ps) && decide (b = pe)
     | .other _ => false)

/-- The allocation DELETE / SELECT key: `period_start = ps AND period_end = pe`. -/

def aKeyB (ps pe : Int) (a : CostAllocationRow) : Bool :=
  decide (a.periodStart = ps) && decide (a.periodEnd = pe)

/-- The `clear_period_payroll_ap_obligations` DELETE predicate. -/

def obDeleteB (ps pe : Int) (orderIds : List ℕ) (ob : ApObligationRow) : Bool :=
  orderIds.contains ob.orderId && ob.sourceType == "AUTONOMY_PAYROLL" &&
    ob.counterparty == Cpty.payrollAuto ps pe

/-- The reconciliation upsert key. -/

def rKeyB (ps pe : Int) (r : ReconRow) : Bool :=
  decide (r.periodStart = ps) && decide (r.periodEnd = pe)

def delJournals (db : Db) (ps pe : Int) (orderIds : List ℕ) : List JRow :=
  db.journals.filter (fun j => !jDeleteB ps pe orderIds j)

def delAllocs (db : Db) (ps pe : Int) : List CostAllocationRow :=
  db.allocations.filter (fun a => !aKeyB ps pe a)

def delAps (db : Db) (ps pe : Int) (orderIds : List ℕ) :
    List ApObligationRow :=
  if orderIds.isEmpty then db.apObligations
  else db.apObligations.filter (fun ob => !obDeleteB ps pe orderIds ob)

def delRecons (db : Db) (ps pe : Int) : List ReconRow :=
  db.recons.filter (fun r => !rKeyB ps pe r)

/-- Deterministic order on the per-order aggregation keys: SQL orders by
`order_id` only; ties between currencies of one order are refined by the
currency so the model is a function. -/

def groupKeyLe (a b : ℕ × String) : Bool :=
  if a.1 = b.1 then strLe a.2 b.2 else a.1 < b.1

/-- The per-order aggregation of `allocate_costs` (`per_order_rows`):
`GROUP BY order_id, currency` over the period's allocation rows with
`SUM(allocated_cost)`, keeping only groups with positive rounded cost. -/

def payrollGroups (periodAllocs : List CostAllocationRow) :
    List ((ℕ × String) × ℚ) :=
  (sortBy groupKeyLe
    (dedup (periodAllocs.map (fun a => (a.orderId, a.currency))))).filterMap
    (fun k =>
      if round4 (((periodAllocs.filter (fun a =>
          a.orderId == k.1 && a.currency == k.2)).map
          (fun a => a.allocatedCost)).sum) ≤ 0 then none
      else
        some (k, round4 (((periodAllocs.filter (fun a =>
          a.orderId == k.1 && a.currency == k.2)).map
          (fun a => a.allocatedCost)).sum)))

/-- The payroll journal rows inserted per group: expense debit (5100) and
payable credit (2300), plus the immediate-settlement pair (2300 debit /
cash 1000 credit) when `settle_payroll_ap` is on. -/

def payrollJournals (ps pe : Int) (settle : Bool)
    (groups : List ((ℕ × String) × ℚ)) : List JRow :=
  groups.flatMap (fun g =>
    [{ orderId := g.1.1, account := "5100", debit := g.2, credit := 0,
       memo := .payrollAlloc ps pe g.1.1 "DEBIT" },
     { orderId := g.1.1, account := "2300", debit := 0, credit := g.2,
       memo := .payrollAlloc ps pe g.1.1 "CREDIT" }] ++
    (if settle then
      [{ orderId := g.1.1, account := "2300", debit := g.2, credit := 0,
         memo := .payrollAlloc ps pe g.1.1 "AP_SETTLE_DEBIT" },
       { orderId := g.1.1, account := "1000", debit := 0, credit := g.2,
         memo := .payrollAlloc ps pe g.1.1 "AP_SETTLE_CREDIT" }]
     else []))

/-- The AUTONOMY_PAYROLL obligations created per group
(`create_and_settle_payroll_ap_obligation`): OPEN, or SETTLED when
immediately settled. -/

def payrollObligations (ps pe : Int) (settle : Bool)
    (groups : List ((ℕ × String) × ℚ)) : List ApObligationRow :=
  groups.map (fun g =>
    { orderId := g.1.1, sourceType := "AUTONOMY_PAYROLL",
      counterparty := .payrollAuto ps pe, amount := g.2,
      currency := g.1.2, status := if settle then "SETTLED" else "OPEN" })

/-- `journal_total`: the sum of the groups' rounded costs. -/

def journalTotalOf (groups : List ((ℕ × String) × ℚ)) : ℚ :=
  (groups.map (fun g => g.2)).sum

/-- `finops_variance_threshold_pct()` = `Decimal::new(5, 1)` = 0.5 (%). -/

def finopsVarianceThresholdPct : ℚ := 5 / 10

/-- The reconciliation record computed at the end of `allocate_costs`
(lines rounding the three totals, the absolute variance, the percentage and
the status). -/

def reconFor (ps pe : Int) (nOrders : ℕ) (st0 alt0 jt0 : ℚ) : ReconRow :=
  { periodStart := ps, periodEnd := pe,
    sourceTotal := round4 st0, allocatedTotal := round4 alt0,
    journalTotal := round4 jt0,
    varianceAmount := round4 |round4 st0 - round4 jt0|,
    variancePct :=
      if 0 < round4 st0 then
        round4 (round4 |round4 st0 - round4 jt0| / round4 st0 * 100)
      else 0,
    ordersAllocated := nOrders,
    status :=
      if round4 st0 = 0 then "NO_SOURCE_COSTS"
      else if (if 0 < round4 st0 then
          round4 (round4 |round4 st0 - round4 jt0| / round4 st0 * 100)
        else 0) ≤ finopsVarianceThresholdPct then "BALANCED"
      else "OUT_OF_TOLERANCE" }

structure AllocateResp where
  periodStart : Int
  periodEnd : Int
  ordersAllocated : ℕ
  sourceTotal : ℚ
  allocatedTotal : ℚ
  journalTotal : ℚ
  varianceAmount : ℚ
  variancePct : ℚ
  status : String
deriving DecidableEq

/-- The response body, echoing the reconciliation values. -/

def respFor (ps pe : Int) (n : ℕ) (r : ReconRow) : AllocateResp :=
  { periodStart := ps, periodEnd := pe, ordersAllocated := n,
    sourceTotal := r.sourceTotal, allocatedTotal := r.allocatedTotal,
    journalTotal := r.journalTotal, varianceAmount := r.varianceAmount,
    variancePct := r.variancePct, status := r.status }

/-- The period groups of one run, read back from the regenerated
`finops_cost_allocations` table (old period rows deleted, new rows
appended, then filtered by the period key). -/

def periodGroups (db : Db) (ps pe : Int) : List ((ℕ × String) × ℚ) :=
  payrollGroups
    ((delAllocs db ps pe ++ genAllocRows db ps pe).filter (aKeyB ps pe))

/-- The reconciliation record of one run. -/

def reconOf (db : Db) (ps pe : Int) : ReconRow :=
  reconFor ps pe (listFulfilledOrders db ps pe).length
    (sourceTotalOf db ps pe) (allocatedTotalOf db ps pe)
    (journalTotalOf (periodGroups db ps pe))

/-- The transactional body of `allocate_costs` after its guards: delete the
period-tagged artifacts, regenerate the allocation rows, post the payroll
journals and obligations, and upsert the reconciliation record. -/

def runEngine (db : Db) (ps pe : Int) (settle : Bool) : Db × AllocateResp :=
  ({ db with
      journals :=
        delJournals db ps pe
            ((listFulfilledOrders db ps pe).map (fun o => o.orderId)) ++
          payrollJournals ps pe settle (periodGroups db ps pe),
      allocations := delAllocs db ps pe ++ genAllocRows db ps pe,
      apObligations :=
        delAps db ps pe
            ((listFulfilledOrders db ps pe).map (fun o => o.orderId)) ++
          payrollObligations ps pe settle (periodGroups db ps pe),
      recons := delRecons db ps pe ++ [reconOf db ps pe] },
   respFor ps pe (listFulfilledOrders db ps pe).length (reconOf db ps pe))

inductive EngineResult
  | err (msg : String)
  | ok (db : Db) (resp : AllocateResp)
deriving DecidableEq

/-- The request of `allocate_costs`.  `actorValid` is the outcome of the
`validate_finops_actor` whitelist check (an authorization concern orthogonal
to the engine). -/

structure AllocateReq where
  actorValid : Bool
  periodStart : Int
  periodEnd : Int
  settlePayrollAp : Option Bool
deriving DecidableEq

/-- Embeds `allocate_costs`: actor check, period sanity check, eligibility
check (error before any mutation — the transaction rolls back), then the
engine body.  `settle_payroll_ap` defaults to true. -/

def allocateCosts (db : Db) (req : AllocateReq) : EngineResult :=
  if !req.actorValid then .err "agent is not authorized for finops operations"
  else if req.periodEnd ≤ req.periodStart then
    .err "period_end must be greater than period_start"
  else if (listFulfilledOrders db req.periodStart req.periodEnd).isEmpty then
    .err "no fulfilled orders found in the requested period"
  else
    .ok (runEngine db req.periodStart req.periodEnd
          (req.settlePayrollAp.getD true)).1
      (runEngine db req.periodStart req.periodEnd
          (req.settlePayrollAp.getD true)).2

/-- The state after a successful run (the input state if the run errored). -/

def engineOkDb (db : Db) (req : AllocateReq) : Db :=
  match allocateCosts db req with
  | .ok d _ => d
  | .err _ => db

/-- The response of a successful run (a zero response if it errored). -/

def engineOkResp (db : Db) (req : AllocateReq) : AllocateResp :=
  match allocateCosts db req with
  | .ok _ r => r
  | .err _ => respFor 0 0 0 (reconFor 0 0 0 0 0 0)

/-! Engine fixtures: a window `[0, 100)`, one in-window fulfilled order,
and token usage either naming the in-window order (idempotent re-run) or an
order fulfilled outside the window (the re-run duplication scenario). -/


def orderRow1 : OrderRow :=
  { id := 1, status := "FULFILLED", fulfilledAt := some 10,
    quantity := 1, unitPrice := 10 }

def orderRow2 : OrderRow :=
  { id := 2, status := "FULFILLED", fulfilledAt := some 200,
    quantity := 1, unitPrice := 10 }

def tokenRowW : TokenRow :=
  { id := 1, occurredAt := 5, orderId := some 1, agentId := none,
    skillId := some "llm", totalCost := 10, currency := "USD" }

def tokenRowX : TokenRow :=
  { id := 1, occurredAt := 5, orderId := some 2, agentId := none,
    skillId := none, totalCost := 10, currency := "USD" }

def dbW : Db :=
  { orders := [orderRow1], tokenRows := [tokenRowW], cloudRows := [],
    subRows := [], allocations := [], journals := [], apObligations := [],
    recons := [] }

def reqW : AllocateReq :=
  { actorValid := true, periodStart := 0, periodEnd := 100,
    settlePayrollAp := none }

def dbX : Db :=
  { orders := [orderRow1, orderRow2], tokenRows := [tokenRowX],
    cloudRows := [], subRows := [], allocations := [], journals := [],
    apObligations := [], recons := [] }

/-- A database with source costs inside the window but no order fulfilled
in it (order 2 is fulfilled at 200, outside `[0, 100)`). -/

def dbEmptyWindow : Db :=
  { orders := [orderRow2], tokenRows := [tokenRowX], cloudRows := [],
    subRows := [], allocations := [], journals := [], apObligations := [],
    recons := [] }

/-! ## AP settlement: settle_ap_internal -/


structure ApSubEntry where
  entryType : String
  debit : ℚ
  credit : ℚ
  balanceAfter : ℚ
  currency : String
  memo : String
deriving DecidableEq

/-- An `ap_obligations` row together with its `ap_subledger_entries`,
ordered by (posted_at, id) ascending: the latest entry is last. Audit-only
timestamp columns are omitted. -/

structure ApAccount where
  obId : ℕ
  orderId : ℕ
  sourceType : String
  status : String
  currency : String
  entries : List ApSubEntry
deriving DecidableEq

structure SettleReq where
  actorValid : Bool
  obId : ℕ
  settlementRef : Option String
deriving DecidableEq

structure SettleResp where
  obId : ℕ
  orderId : ℕ
  sourceType : String
  previousStatus : String
  status : String
  settledAmount : ℚ
  outstandingBefore : ℚ
  outstandingAfter : ℚ
  alreadySettled : Bool
deriving DecidableEq

/-- Outcome of `settle_ap_internal`: on success the updated obligation
account (its subledger now holding any payment entry that was inserted),
the journal lines inserted, and the response body; on failure the HTTP
status code and message, with no state carried (the transaction rolls
back). -/

inductive SettleResult
  | ok (acct : ApAccount) (journals : List JRow) (resp : SettleResp)
  | err (code : ℕ) (msg : String)
deriving DecidableEq

/-- `current_ap_obligation_balance`: the latest subledger balance_after
(0 when no entry exists), rounded to 4 decimal places. -/

def currentApBalance (acct : ApAccount) : ℚ :=
  round4 ((acct.entries.getLast?.map (fun e => e.balanceAfter)).getD 0)

/-- `ap_liability_account_for_source_type`. -/

def apLiabilityAccountForSourceType (sourceType : String) : Option String :=
  match sourceType with
  | "PROCUREMENT" => some "2100"
  | "SERVICE_DELIVERY" => some "2200"
  | "AUTONOMY_PAYROLL" => some "2300"
  | _ => none

/-- The settlement tolerance `Decimal::new(1, 4)` = 0.0001. -/

def apEpsilon : ℚ := 1 / 10 ^ 4

/-- The memo root: `{namespace}|{trimmed settlement_ref}` when a non-empty
settlement_ref is supplied, else `{namespace}|{ap_obligation_id}`. -/

def settleMemoRoot (ns : String) (req : SettleReq) : String :=
  match req.settlementRef with
  | some v =>
    if v.trim = "" then ns ++ "|" ++ toString req.obId
    else ns ++ "|" ++ v.trim
  | none => ns ++ "|" ++ toString req.obId

/-- The PAYMENT_POSTED subledger entry inserted when a balance is paid:
it debits the settled amount and records balance_after = 0. -/

def apPaymentEntry (ns : String) (req : SettleReq) (acct : ApAccount) :
    ApSubEntry :=
  { entryType := "PAYMENT_POSTED",
    debit := round4 (currentApBalance acct), credit := 0, balanceAfter := 0,
    currency := acct.currency,
    memo := settleMemoRoot ns req ++ "|AP_PAYMENT" }

/-- The balancing journal pair: liability debit, cash (1000) credit. -/

def apSettleJournals (ns : String) (req : SettleReq) (acct : ApAccount)
    (liab : String) : List JRow :=
  [{ orderId := acct.orderId, account := liab,
     debit := round4 (currentApBalance acct), credit := 0,
     memo := JMemo.other (settleMemoRoot ns req ++ "|AP_SETTLE_DEBIT") },
   { orderId := acct.orderId, account := "1000",
     debit := 0, credit := round4 (currentApBalance acct),
     memo := JMemo.other (settleMemoRoot ns req ++ "|AP_SETTLE_CREDIT") }]

/-- The obligation after the settlement branch: status SETTLED, with the
payment entry appended exactly when the rounded balance exceeds the
tolerance. -/

def settledAcct (ns : String) (req : SettleReq) (acct : ApAccount) :
    ApAccount :=
  if apEpsilon < round4 (currentApBalance acct) then
    { acct with
        status := "SETTLED",
        entries := acct.entries ++ [apPaymentEntry ns req acct] }
  else { acct with status := "SETTLED" }

/-- The pay branch of `settle_ap_internal`: posts the subledger entry and
journal pair only when the rounded outstanding balance exceeds the
tolerance, then marks the obligation SETTLED and re-reads the balance. -/

def settlePay (ns : String) (req : SettleReq) (acct : ApAccount)
    (liab : String) : SettleResult :=
  .ok (settledAcct ns req acct)
    (if apEpsilon < round4 (currentApBalance acct) then
      apSettleJournals ns req acct liab
    else [])
    { obId := acct.obId, orderId := acct.orderId,
      sourceType := acct.sourceType,
      previousStatus := acct.status, status := "SETTLED",
      settledAmount := round4 (round4 (currentApBalance acct)),
      outstandingBefore := round4 (currentApBalance acct),
      outstandingAfter := round4 (currentApBalance (settledAcct ns req acct)),
      alreadySettled := false }

/-- The body of `settle_ap_internal` after the row was fetched and the
expected-source-type check passed: liability account lookup, CANCELLED
guard, then either the already-settled no-op branch or the pay branch. -/

def settleBody (ns : String) (req : SettleReq) (acct : ApAccount) :
    SettleResult :=
  match apLiabilityAccountForSourceType acct.sourceType with
  | none => .err 400 ("unsupported ap source_type " ++ acct.sourceType)
  | some liab =>
    if acct.status = "CANCELLED" then
      .err 400 "cannot settle a CANCELLED ap_obligation"
    else if acct.status = "SETTLED" ∧ currentApBalance acct ≤ apEpsilon then
      .ok acct []
        { obId := acct.obId, orderId := acct.orderId,
          sourceType := acct.sourceType,
          previousStatus := acct.status, status := "SETTLED",
          settledAmount := round4 0,
          outstandingBefore := round4 (currentApBalance acct),
          outstandingAfter := round4 (round4 (currentApBalance acct)),
          alreadySettled := true }
    else settlePay ns req acct liab

/-- `settle_ap_internal`: actor guard, obligation lookup, optional
expected-source-type guard, then the settlement body. -/

def settleApInternal (expected : Option String) (ns : String)
    (req : SettleReq) (acctOpt : Option ApAccount) : SettleResult :=
  if !req.actorValid then
    .err 400 "agent is not authorized for finops operations"
  else match acctOpt, expected with
  | none, _ => .err 404 "ap_obligation not found"
  | some acct, some e =>
    if acct.sourceType ≠ e then .err 400 ("ap_obligation is not " ++ e)
    else settleBody ns req acct
  | some acct, none => settleBody ns req acct

def settleRespDefault : SettleResp :=
  { obId := 0, orderId := 0, sourceType := "", previousStatus := "",
    status := "", settledAmount := 0, outstandingBefore := 0,
    outstandingAfter := 0, alreadySettled := false }

def respOf (r : SettleResult) : SettleResp :=
  match r with
  | .ok _ _ p => p
  | .err _ _ => settleRespDefault

def acctOf (r : SettleResult) (d : ApAccount) : ApAccount :=
  match r with
  | .ok a _ _ => a
  | .err _ _ => d

def journalsOf (r : SettleResult) : List JRow :=
  match r with
  | .ok _ js _ => js
  | .err _ _ => []

/-- An OPEN payroll obligation whose whole outstanding balance equals the
0.0001 tolerance. -/

def apOb9 : ApAccount :=
  { obId := 9, orderId := 1, sourceType := "AUTONOMY_PAYROLL",
    status := "OPEN", currency := "USD",
    entries := [{ entryType := "OBLIGATION_ACCRUED", debit := 0,
                  credit := 1 / 10 ^ 4, balanceAfter := 1 / 10 ^ 4,
                  currency := "USD", memo := "accrual" }] }

def settleReq9 : SettleReq :=
  { actorValid := true, obId := 9, settlementRef := none }

/-- An OPEN payroll obligation with outstanding balance 12.50. -/

def apObW : ApAccount :=
  { obId := 7, orderId := 3, sourceType := "AUTONOMY_PAYROLL",
    status := "OPEN", currency := "USD",
    entries := [{ entryType := "OBLIGATION_ACCRUED", debit := 0,
                  credit := 25 / 2, balanceAfter := 25 / 2,
                  currency := "USD", memo := "accrual" }] }

def settleReqW : SettleReq :=
  { actorValid := true, obId := 7, settlementRef := none }

/-! ## Theorems -/

theorem ratFloor_eq_intFloor (x : ℚ) : x.floor = ⌊x⌋ := by
  rw [Rat.floor_def', Rat.floor_def]

theorem roundHalfEven_intCast (n : ℤ) : roundHalfEven (n : ℚ) = n := by
  unfold roundHalfEven
  simp [ratFloor_eq_intFloor]

theorem dp4_round4 (x : ℚ) : Dp4 (round4 x) :=
  ⟨roundHalfEven (x * (10 : ℚ) ^ 4), rfl⟩

theorem round4_eq_self {x : ℚ} (h : Dp4 x) : round4 x = x := by
  obtain ⟨n, rfl⟩ := h
  unfold round4 roundDp
  have h10 : ((10 : ℚ) ^ 4) ≠ 0 := by norm_num
  have : (n : ℚ) / 10 ^ 4 * (10 : ℚ) ^ 4 = (n : ℚ) := by
    field_simp
  rw [this, roundHalfEven_intCast]

theorem dp4_add {x y : ℚ} (hx : Dp4 x) (hy : Dp4 y) : Dp4 (x + y) := by
  obtain ⟨n, rfl⟩ := hx
  obtain ⟨m, rfl⟩ := hy
  exact ⟨n + m, by push_cast; ring⟩

theorem dp4_sub {x y : ℚ} (hx : Dp4 x) (hy : Dp4 y) : Dp4 (x - y) := by
  obtain ⟨n, rfl⟩ := hx
  obtain ⟨m, rfl⟩ := hy
  exact ⟨n - m, by push_cast; ring⟩

theorem dp4_zero : Dp4 0 := ⟨0, by norm_num⟩

theorem dp4_abs {x : ℚ} (hx : Dp4 x) : Dp4 |x| := by
  obtain ⟨n, rfl⟩ := hx
  refine ⟨|n|, ?_⟩
  rw [abs_div]
  push_cast
  norm_num

theorem mem_insertBy {le : α → α → Bool} {a x : α} {l : List α} :
    x ∈ insertBy le a l → x = a ∨ x ∈ l := by
  induction l with
  | nil => intro h; simp [insertBy] at h; exact Or.inl h
  | cons b t ih =>
    intro h
    by_cases hc : le a b
    · rw [insertBy, if_pos hc] at h
      exact List.mem_cons.mp h
    · rw [insertBy, if_neg hc] at h
      rcases List.mem_cons.mp h with h | h
      · exact Or.inr (by simp [h])
      · rcases ih h with h' | h'
        · exact Or.inl h'
        · exact Or.inr (by simp [h'])

theorem mem_sortBy {le : α → α → Bool} {x : α} {l : List α} :
    x ∈ sortBy le l → x ∈ l := by
  induction l with
  | nil => intro h; simp [sortBy] at h
  | cons a t ih =>
    intro h
    rcases mem_insertBy h with h' | h'
    · simp [h']
    · exact List.mem_cons_of_mem _ (ih h')

theorem mem_dedupAux [BEq α] {seen : List α} {x : α} {l : List α} :
    x ∈ dedupAux seen l → x ∈ l := by
  induction l generalizing seen with
  | nil => intro h; simp [dedupAux] at h
  | cons a t ih =>
    intro h
    by_cases hc : seen.contains a
    · rw [dedupAux, if_pos hc] at h
      exact List.mem_cons_of_mem _ (ih h)
    · rw [dedupAux, if_neg hc] at h
      rcases List.mem_cons.mp h with h | h
      · simp [h]
      · exact List.mem_cons_of_mem _ (ih h)

theorem mem_dedup [BEq α] {x : α} {l : List α} : x ∈ dedup l → x ∈ l :=
  mem_dedupAux

theorem filter_append_filter (p : α → Bool) (l₁ l₂ : List α) :
    (l₁.filter p ++ l₂).filter p = l₁.filter p ++ l₂.filter p := by
  rw [List.filter_append, List.filter_filter]
  simp

theorem filter_not_of_all (p : α → Bool) {l : List α} (h : ∀ x ∈ l, p x = true) :
    l.filter (fun x => !p x) = [] := by
  induction l with
  | nil => rfl
  | cons a t ih =>
    simp only [List.filter_cons]
    rw [h a (by simp)]
    simp only [Bool.not_true, cond_false]
    exact ih fun x hx => h x (by simp [hx])

theorem filter_sum_of_nonneg {l : List ℚ} (h : ∀ x ∈ l, 0 ≤ x) :
    (l.filter (fun x => !decide (x ≤ 0))).sum = l.sum := by
  induction l with
  | nil => rfl
  | cons a t ih =>
    have ha := h a (by simp)
    have ht := ih fun x hx => h x (by simp [hx])
    simp only [List.filter_cons]
    by_cases hz : a ≤ 0
    · have : a = 0 := le_antisymm hz ha
      simp [hz, this, ht]
    · simp [hz, ht]

/-! ## Skill-executor lemmas -/


theorem primaryRows_fail_snd {reg : Registry} {ctx : SkillExecutionContext}
    {policy : SkillRoutingPolicy} {r : String}
    (hfail : invokeOutcomeFailure reg ctx policy policy.primarySkillId
      policy.primarySkillVersion false = some r) :
    ∀ (k : ℕ) (n : Int), (primaryRows reg ctx policy k n).2 = false := by
  intro k
  induction k with
  | zero => intro n; rfl
  | succ k ih => intro n; simp [primaryRows, hfail, ih]

theorem primaryRows_fail_length {reg : Registry} {ctx : SkillExecutionContext}
    {policy : SkillRoutingPolicy} {r : String}
    (hfail : invokeOutcomeFailure reg ctx policy policy.primarySkillId
      policy.primarySkillVersion false = some r) :
    ∀ (k : ℕ) (n : Int), (primaryRows reg ctx policy k n).1.length = k := by
  intro k
  induction k with
  | zero => intro n; rfl
  | succ k ih => intro n; simp [primaryRows, hfail, ih]

theorem primaryRows_fail_rows {reg : Registry} {ctx : SkillExecutionContext}
    {policy : SkillRoutingPolicy} {r : String}
    (hfail : invokeOutcomeFailure reg ctx policy policy.primarySkillId
      policy.primarySkillVersion false = some r) :
    ∀ (k : ℕ) (n : Int), ∀ row ∈ (primaryRows reg ctx policy k n).1,
      row.fallbackUsed = false ∧ row.status = "FAILED" := by
  intro k
  induction k with
  | zero => intro n row hrow; simp [primaryRows] at hrow
  | succ k ih =>
    intro n row hrow
    simp only [primaryRows, hfail] at hrow
    rcases List.mem_cons.mp hrow with h | h
    · subst h; simp [invocationRowFor]
    · exact ih (n + 1) row h

/-- On primary exhaustion with no (usable) fallback, or with a fallback that
also fails, `execute_skill_plan` ends escalated: a single governance
escalation and a `SkillEscalatedError` reason. -/

theorem executeSkillPlan_escalates {reg : Registry}
    {ctx : SkillExecutionContext} {policy : SkillRoutingPolicy} {r : String}
    (hfail : invokeOutcomeFailure reg ctx policy policy.primarySkillId
      policy.primarySkillVersion false = some r)
    (hfb : policy.fallbackSkillId = none ∨ policy.fallbackSkillVersion = none ∨
      ∀ fid fver, policy.fallbackSkillId = some fid →
        policy.fallbackSkillVersion = some fver →
        (invokeOutcomeFailure reg ctx policy fid fver true).isSome = true) :
    ((executeSkillPlan reg ctx policy).2.1).length = 1 ∧
    ((executeSkillPlan reg ctx policy).2.2).isSome = true := by
  have hsnd := primaryRows_fail_snd hfail ((policy.maxRetries + 1).toNat) 1
  rcases hid : policy.fallbackSkillId with _ | fid
  · simp [executeSkillPlan, hsnd, hid]
  · rcases hver : policy.fallbackSkillVersion with _ | fver
    · simp [executeSkillPlan, hsnd, hid, hver]
    · have hsome : (invokeOutcomeFailure reg ctx policy fid fver true).isSome = true := by
        rcases hfb with h | h | h
        · rw [hid] at h; cases h
        · rw [hver] at h; cases h
        · exact h fid fver hid hver
      rcases hfo : invokeOutcomeFailure reg ctx policy fid fver true with _ | rr
      · rw [hfo] at hsome; cases hsome
      · simp [executeSkillPlan, hsnd, hid, hver, hfo]

/-- A `fulfillEffects` result that commits always commits a FULFILLED order
whose revenue is `round4(quantity * unit_price)` and whose journal rows are
exactly the six-line batch for that revenue and the unit's COGS. -/

theorem fulfillEffects_committed {env : OpsEnv} {order : OrderRecord}
    {rows : List SkillInvocationRow} {escs : List EscalationRow}
    {eff : ProcessEffects}
    (hc : fulfillEffects env order rows escs = .committed eff) :
    eff.orderStatus = "FULFILLED" ∧
    eff.revenue = round4 (order.quantity * order.unitPrice) ∧
    eff.journals = journalBatch order.transactionType eff.revenue eff.cogs := by
  cases htt : order.transactionType with
  | product =>
    simp only [fulfillEffects, htt] at hc
    split at hc
    · cases hc
    · cases hc
      exact ⟨rfl, rfl, rfl⟩
  | service =>
    simp only [fulfillEffects, htt] at hc
    cases hc
    exact ⟨rfl, rfl, rfl⟩

/-- Structure of a committed FULFILLED fulfillment unit: the revenue posted
is `round4(quantity * unit_price)` and the journal rows are exactly the
six-line batch for that revenue and the unit's COGS. -/

theorem processOrder_fulfilled_shape {env : OpsEnv} {order : OrderRecord}
    {eff : ProcessEffects}
    (hc : processOrder env order = .committed eff)
    (hf : eff.orderStatus = "FULFILLED") :
    eff.revenue = round4 (order.quantity * order.unitPrice) ∧
    eff.journals = journalBatch order.transactionType eff.revenue eff.cogs := by
  by_cases hg : order.quantity ≤ 0 ∨ order.unitPrice ≤ 0
  · rw [processOrder, if_pos hg] at hc
    cases hc
  · rcases hpol : env.policyFor order.transactionType with _ | policy
    · simp only [processOrder, if_neg hg, hpol] at hc
      cases hc
    · rcases hplan : executeSkillPlan env.registry (contextFor order) policy
        with ⟨rows, escs, res⟩
      rcases res with _ | reason
      · simp only [processOrder, if_neg hg, hpol, hplan] at hc
        exact (fulfillEffects_committed hc).2
      · simp only [processOrder, if_neg hg, hpol, hplan] at hc
        cases hc
        simp [escalatedEffects] at hf

/-- The six-line batch is balanced by construction: each side sums to
`2 * revenue + cogs`, for both transaction types. -/

theorem journalBatch_sums (tt : TransactionType) (revenue cogs : ℚ) :
    (journalBatch tt revenue cogs).length = 6 ∧
    ((journalBatch tt revenue cogs).map (fun j => j.debit)).sum =
      2 * revenue + cogs ∧
    ((journalBatch tt revenue cogs).map (fun j => j.credit)).sum =
      2 * revenue + cogs := by
  cases tt <;> refine ⟨rfl, ?_, ?_⟩ <;> simp [journalBatch] <;> ring

theorem processOrder_escalated_eq {env : OpsEnv} {order : OrderRecord}
    {policy : SkillRoutingPolicy} {rows : List SkillInvocationRow}
    {escs : List EscalationRow} {reason : String}
    (hg : ¬(order.quantity ≤ 0 ∨ order.unitPrice ≤ 0))
    (hpol : env.policyFor order.transactionType = some policy)
    (hplan : executeSkillPlan env.registry (contextFor order) policy =
      (rows, escs, some reason)) :
    processOrder env order = .committed (escalatedEffects env order rows escs reason) := by
  simp only [processOrder, if_neg hg, hpol, hplan]

/-! ## Claim theorems for the fulfillment worker -/


/-- C1 counterexample: a PRODUCT order whose primary skill fails its single
attempt under a max_retries = 0, no-fallback policy.  The order is marked
FAILED and exactly one escalation is created, but the executor records TWO
`skill_invocations` rows (the FAILED attempt plus the final ESCALATED
record), not one as the claim states. -/

theorem c1_counterexample :
    policyNoFallback.maxRetries = 0 ∧
    policyNoFallback.fallbackSkillId = none ∧
    envNoFallback.policyFor orderFailAll.transactionType = some policyNoFallback ∧
    (invokeOutcomeFailure envNoFallback.registry (contextFor orderFailAll)
      policyNoFallback policyNoFallback.primarySkillId
      policyNoFallback.primarySkillVersion false).isSome = true ∧
    resultOrderStatus (processOrder envNoFallback orderFailAll) = "FAILED" ∧
    (resultEscalations (processOrder envNoFallback orderFailAll)).length = 1 ∧
    (resultInvocations (processOrder envNoFallback orderFailAll)).length ≠ 1 := by
  apply of_decide_eq_true
  with_unfolding_all rfl

/-- C1 (amended): for an order whose routing policy has max_retries = 0 and
no fallback skill, and whose primary skill fails its single attempt, the
executor records exactly 2 SkillInvocation rows — the FAILED attempt and the
final ESCALATED record — marks the order FAILED, and creates exactly 1
governance escalation. -/

theorem c1_exhaustion_two_rows_one_escalation
    {env : OpsEnv} {order : OrderRecord} {policy : SkillRoutingPolicy}
    {r : String}
    (hq : 0 < order.quantity) (hp : 0 < order.unitPrice)
    (hpol : env.policyFor order.transactionType = some policy)
    (hmr : policy.maxRetries = 0)
    (hfb : policy.fallbackSkillId = none)
    (hfail : invokeOutcomeFailure env.registry (contextFor order) policy
      policy.primarySkillId policy.primarySkillVersion false = some r) :
    (resultInvocations (processOrder env order)).length = 2 ∧
    (resultInvocations (processOrder env order)).map (fun row => row.status)
      = ["FAILED", "ESCALATED"] ∧
    resultOrderStatus (processOrder env order) = "FAILED" ∧
    (resultEscalations (processOrder env order)).length = 1 := by
  have hg : ¬(order.quantity ≤ 0 ∨ order.unitPrice ≤ 0) := by
    push_neg
    exact ⟨hq, hp⟩
  have hplan : executeSkillPlan env.registry (contextFor order) policy =
      ([invocationRowFor policy.primarySkillId policy.primarySkillVersion 1
          false (some r),
        { attemptNo := 2, skillId := policy.primarySkillId,
          skillVersion := policy.primarySkillVersion, status := "ESCALATED",
          failureReason := some r, fallbackUsed := false }],
       [{ actionType := policy.escalationActionType,
          referenceOrderId := (contextFor order).orderId,
          reasonCode := "SKILL_RUNTIME_FAILURE",
          amount := round4 ((contextFor order).quantity *
            (contextFor order).unitPrice),
          currency := (contextFor order).currency, decisionNote := r }],
       some r) := by
    simp [executeSkillPlan, hmr, hfb, hfail, primaryRows, invocationRowFor]
  rw [processOrder_escalated_eq hg hpol hplan]
  refine ⟨rfl, ?_, rfl, rfl⟩
  simp [resultInvocations, escalatedEffects, invocationRowFor]

/-- C1 witness: the amended theorem instantiated on the concrete FAILALL
fixture. -/

theorem c1_witness :
    (resultInvocations (processOrder envNoFallback orderFailAll)).length = 2 ∧
    (resultInvocations (processOrder envNoFallback orderFailAll)).map
      (fun row => row.status) = ["FAILED", "ESCALATED"] ∧
    resultOrderStatus (processOrder envNoFallback orderFailAll) = "FAILED" ∧
    (resultEscalations (processOrder envNoFallback orderFailAll)).length = 1 :=
  @c1_exhaustion_two_rows_one_escalation envNoFallback orderFailAll
    policyNoFallback "forced skill failure marker FAILALL encountered"
    (by apply of_decide_eq_true; with_unfolding_all rfl)
    (by apply of_decide_eq_true; with_unfolding_all rfl) rfl rfl rfl
    (by apply of_decide_eq_true; with_unfolding_all rfl)

/-- C2: every fulfillment unit that commits a FULFILLED order posts exactly
six journal lines, with total debits equal to total credits and each side
equal to `2 * revenue + cogs` for `revenue = quantity * unit_price`
(hypothesis: the product needs no rounding at 4 decimal places, which is
what the source's `round_dp(4)` leaves unchanged). -/

theorem c2_fulfilled_journal_balance
    {env : OpsEnv} {order : OrderRecord}
    (hf : resultOrderStatus (processOrder env order) = "FULFILLED")
    (h4 : roundDp 4 (order.quantity * order.unitPrice) =
      order.quantity * order.unitPrice) :
    (resultJournals (processOrder env order)).length = 6 ∧
    ((resultJournals (processOrder env order)).map (fun j => j.debit)).sum =
      ((resultJournals (processOrder env order)).map (fun j => j.credit)).sum ∧
    ((resultJournals (processOrder env order)).map (fun j => j.debit)).sum =
      2 * (order.quantity * order.unitPrice) +
        resultCogs (processOrder env order) := by
  cases hres : processOrder env order with
  | aborted e =>
    rw [hres] at hf
    simp [resultOrderStatus] at hf
  | committed eff =>
    rw [hres] at hf
    have hshape := processOrder_fulfilled_shape hres hf
    have hrev : eff.revenue = order.quantity * order.unitPrice := by
      rw [hshape.1, round4, h4]
    have hsums := journalBatch_sums order.transactionType eff.revenue eff.cogs
    simp only [resultJournals, resultCogs, hshape.2]
    exact ⟨hsums.1, by rw [hsums.2.1, hsums.2.2], by rw [hsums.2.1, hrev]⟩

/-- C2 witness: the balance equalities on the concrete fulfilled
quantity-2, price-50 PRODUCT order. -/

theorem c2_witness :
    (resultJournals (processOrder envNoFallback orderWidget)).length = 6 ∧
    ((resultJournals (processOrder envNoFallback orderWidget)).map
      (fun j => j.debit)).sum =
      ((resultJournals (processOrder envNoFallback orderWidget)).map
        (fun j => j.credit)).sum ∧
    ((resultJournals (processOrder envNoFallback orderWidget)).map
      (fun j => j.debit)).sum =
      2 * (orderWidget.quantity * orderWidget.unitPrice) +
        resultCogs (processOrder envNoFallback orderWidget) :=
  c2_fulfilled_journal_balance
    (by apply of_decide_eq_true; with_unfolding_all rfl)
    (by apply of_decide_eq_true; with_unfolding_all rfl)

/-- C4: with max_retries = R ≥ 0, a primary skill that fails every attempt
and a configured fallback that succeeds, the executor records exactly R+1
primary (non-fallback) invocation rows and exactly 1 fallback invocation
row, ends in the terminal success state, and creates no escalation. -/

theorem c4_retry_fallback_invocation_counts
    {reg : Registry} {ctx : SkillExecutionContext}
    {policy : SkillRoutingPolicy} {fid fver r : String}
    (hmr : 0 ≤ policy.maxRetries)
    (hfail : invokeOutcomeFailure reg ctx policy policy.primarySkillId
      policy.primarySkillVersion false = some r)
    (hfid : policy.fallbackSkillId = some fid)
    (hfver : policy.fallbackSkillVersion = some fver)
    (hfb : invokeOutcomeFailure reg ctx policy fid fver true = none) :
    ((executeSkillPlan reg ctx policy).1.filter
      (fun row => !row.fallbackUsed)).length = policy.maxRetries.toNat + 1 ∧
    ((executeSkillPlan reg ctx policy).1.filter
      (fun row => row.fallbackUsed)).length = 1 ∧
    (executeSkillPlan reg ctx policy).2.2 = none ∧
    (executeSkillPlan reg ctx policy).2.1 = [] := by
  have hsnd := primaryRows_fail_snd hfail ((policy.maxRetries + 1).toNat) 1
  have hlen := primaryRows_fail_length hfail ((policy.maxRetries + 1).toNat) 1
  have hrows := primaryRows_fail_rows hfail ((policy.maxRetries + 1).toNat) 1
  have heq : executeSkillPlan reg ctx policy =
      ((primaryRows reg ctx policy ((policy.maxRetries + 1).toNat) 1).1 ++
        [invocationRowFor fid fver (1 + ((policy.maxRetries + 1).toNat : Int))
          true none], [], none) := by
    simp [executeSkillPlan, hsnd, hfid, hfver, hfb]
  rw [heq]
  have hprimFilter :
      ((primaryRows reg ctx policy ((policy.maxRetries + 1).toNat) 1).1.filter
        (fun row => !row.fallbackUsed)) =
      (primaryRows reg ctx policy ((policy.maxRetries + 1).toNat) 1).1 :=
    List.filter_eq_self.mpr fun row hrow => by
      rw [(hrows row hrow).1]; rfl
  have hprimFilter2 :
      ((primaryRows reg ctx policy ((policy.maxRetries + 1).toNat) 1).1.filter
        (fun row => row.fallbackUsed)) = [] := by
    rw [List.filter_eq_nil_iff]
    intro row hrow
    rw [(hrows row hrow).1]
    simp
  refine ⟨?_, ?_, rfl, rfl⟩
  · rw [List.filter_append, hprimFilter]
    simp [invocationRowFor, hlen]
    omega
  · rw [List.filter_append, hprimFilter2]
    simp [invocationRowFor]

/-- C4 witness: max_retries = 2, FAILPRIMARY item, backup fallback — three
primary FAILED rows, one fallback SUCCESS row, terminal success. -/

theorem c4_witness :
    ((executeSkillPlan regFix (contextFor orderFailPrimary)
      policyWithFallback).1.filter (fun row => !row.fallbackUsed)).length =
      policyWithFallback.maxRetries.toNat + 1 ∧
    ((executeSkillPlan regFix (contextFor orderFailPrimary)
      policyWithFallback).1.filter (fun row => row.fallbackUsed)).length = 1 ∧
    (executeSkillPlan regFix (contextFor orderFailPrimary)
      policyWithFallback).2.2 = none ∧
    (executeSkillPlan regFix (contextFor orderFailPrimary)
      policyWithFallback).2.1 = [] :=
  @c4_retry_fallback_invocation_counts regFix (contextFor orderFailPrimary)
    policyWithFallback "backup-fulfillment" "1.0.0"
    "forced primary skill failure marker FAILPRIMARY encountered"
    (by apply of_decide_eq_true; with_unfolding_all rfl)
    (by apply of_decide_eq_true; with_unfolding_all rfl) rfl rfl
    (by apply of_decide_eq_true; with_unfolding_all rfl)

/-- C5 counterexample: on the end-to-end fixture (PRODUCT order, quantity 2,
unit price 50.00, empty starting inventory) the order is FULFILLED but the
six journal lines total 260.00 on each side (2·revenue + cogs), not 200.00
as the claim states. -/

theorem c5_counterexample :
    orderWidget.quantity = 2 ∧ orderWidget.unitPrice = 50 ∧
    orderWidget.transactionType = .product ∧
    envNoFallback.inventory orderWidget.itemCode = none ∧
    resultOrderStatus (processOrder envNoFallback orderWidget) = "FULFILLED" ∧
    ((resultJournals (processOrder envNoFallback orderWidget)).map
      (fun j => j.debit)).sum ≠ 200 := by
  apply of_decide_eq_true
  with_unfolding_all rfl

/-- C5 (amended): the end-to-end PRODUCT order of quantity 2 at unit price
50.00 starting from empty inventory procures 2 units at unit cost 30.00,
sets the average cost to 30.00, computes COGS 60.00 and revenue 100.00,
posts six journal lines totalling 260.00 debit and 260.00 credit
(2·revenue + cogs), records the settlement, transitions the order to
FULFILLED and leaves on_hand = 0 ≥ 0. -/

theorem c5_end_to_end_product_order :
    resultOrderStatus (processOrder envNoFallback orderWidget) = "FULFILLED" ∧
    resultMovements (processOrder envNoFallback orderWidget) =
      [{ movementType := "RECEIPT", itemCode := "WIDGET-1", quantity := 2,
         unitCost := 30 },
       { movementType := "ISSUE", itemCode := "WIDGET-1", quantity := 2,
         unitCost := 30 }] ∧
    resultCogs (processOrder envNoFallback orderWidget) = 60 ∧
    resultRevenue (processOrder envNoFallback orderWidget) = 100 ∧
    (resultJournals (processOrder envNoFallback orderWidget)).length = 6 ∧
    ((resultJournals (processOrder envNoFallback orderWidget)).map
      (fun j => j.debit)).sum = 260 ∧
    ((resultJournals (processOrder envNoFallback orderWidget)).map
      (fun j => j.credit)).sum = 260 ∧
    resultSettlements (processOrder envNoFallback orderWidget) = [100] ∧
    resultInventoryAfter (processOrder envNoFallback orderWidget) =
      some (0, 30) := by
  apply of_decide_eq_true
  with_unfolding_all rfl

/-- C6: when the skill plan exhausts the primary attempts and the fallback
(absent, unusable, or itself failing), the committed unit marks the order
FAILED with a failure reason, creates exactly one governance escalation, and
records no journal lines, no inventory movements and no settlement rows. -/

theorem c6_escalated_order_frame
    {env : OpsEnv} {order : OrderRecord} {policy : SkillRoutingPolicy}
    {r : String}
    (hq : 0 < order.quantity) (hp : 0 < order.unitPrice)
    (hpol : env.policyFor order.transactionType = some policy)
    (hfail : invokeOutcomeFailure env.registry (contextFor order) policy
      policy.primarySkillId policy.primarySkillVersion false = some r)
    (hfb : policy.fallbackSkillId = none ∨
      policy.fallbackSkillVersion = none ∨
      ∀ fid fver, policy.fallbackSkillId = some fid →
        policy.fallbackSkillVersion = some fver →
        (invokeOutcomeFailure env.registry (contextFor order) policy fid fver
          true).isSome = true) :
    resultOrderStatus (processOrder env order) = "FAILED" ∧
    (resultFailureReason (processOrder env order)).isSome = true ∧
    (resultEscalations (processOrder env order)).length = 1 ∧
    resultJournals (processOrder env order) = [] ∧
    resultMovements (processOrder env order) = [] ∧
    resultSettlements (processOrder env order) = [] := by
  have hg : ¬(order.quantity ≤ 0 ∨ order.unitPrice ≤ 0) := by
    push_neg
    exact ⟨hq, hp⟩
  have hesc := executeSkillPlan_escalates hfail hfb
  rcases hplan : executeSkillPlan env.registry (contextFor order) policy
    with ⟨rows, escs, res⟩
  rw [hplan] at hesc
  rcases res with _ | reason
  · simp at hesc
  · rw [processOrder_escalated_eq hg hpol hplan]
    have hescs : escs.length = 1 := hesc.1
    exact ⟨rfl, rfl, hescs, rfl, rfl, rfl⟩

/-- C6 witness: the frame property on the concrete FAILALL fixture. -/

theorem c6_witness :
    resultOrderStatus (processOrder envNoFallback orderFailAll) = "FAILED" ∧
    (resultFailureReason (processOrder envNoFallback orderFailAll)).isSome
      = true ∧
    (resultEscalations (processOrder envNoFallback orderFailAll)).length = 1 ∧
    resultJournals (processOrder envNoFallback orderFailAll) = [] ∧
    resultMovements (processOrder envNoFallback orderFailAll) = [] ∧
    resultSettlements (processOrder envNoFallback orderFailAll) = [] :=
  @c6_escalated_order_frame envNoFallback orderFailAll policyNoFallback
    "forced skill failure marker FAILALL encountered"
    (by apply of_decide_eq_true; with_unfolding_all rfl)
    (by apply of_decide_eq_true; with_unfolding_all rfl) rfl
    (by apply of_decide_eq_true; with_unfolding_all rfl)
    (Or.inl rfl)

/-! ## Proration lemmas -/


theorem distributeByWeight_mem_dp4 {amount totalW : ℚ} :
    ∀ {r : ℚ} {l : List (α × ℚ)} {p : α × ℚ},
      p ∈ distributeByWeight amount totalW r l → Dp4 p.2 := by
  intro r l
  induction l generalizing r with
  | nil => intro p hp; simp [distributeByWeight] at hp
  | cons a t ih =>
    intro p hp
    cases t with
    | nil =>
      rcases a with ⟨a1, a2⟩
      simp only [distributeByWeight] at hp
      have h := List.mem_singleton.mp hp
      rw [h]
      exact dp4_round4 _
    | cons b t' =>
      rcases a with ⟨a1, a2⟩
      simp only [distributeByWeight] at hp
      rcases List.mem_cons.mp hp with h | h
      · rw [h]
        exact dp4_round4 _
      · exact ih h

theorem distributeByWeight_sum {amount totalW : ℚ} :
    ∀ {r : ℚ} {l : List (α × ℚ)}, l ≠ [] → Dp4 r →
      ((distributeByWeight amount totalW r l).map (fun p => p.2)).sum = r := by
  intro r l
  induction l generalizing r with
  | nil => intro h; exact absurd rfl h
  | cons a t ih =>
    intro _ hr
    cases t with
    | nil =>
      rcases a with ⟨a1, a2⟩
      simp [distributeByWeight, round4_eq_self hr]
    | cons b t' =>
      rcases a with ⟨a1, a2⟩
      have hsub : Dp4 (r - round4 (amount * a2 / totalW)) :=
        dp4_sub hr (dp4_round4 _)
      have hrec := ih (List.cons_ne_nil b t')
        (dp4_round4 (r - round4 (amount * a2 / totalW)))
      simp only [distributeByWeight, List.map_cons, List.sum_cons]
      rw [hrec, round4_eq_self hsub]
      ring

theorem distributeEqual_mem_dp4 {perOrder : ℚ} (hp : Dp4 perOrder) :
    ∀ {r : ℚ} {l : List α} {q : α × ℚ},
      q ∈ distributeEqual perOrder r l → Dp4 q.2 := by
  intro r l
  induction l generalizing r with
  | nil => intro q hq; simp [distributeEqual] at hq
  | cons a t ih =>
    intro q hq
    cases t with
    | nil =>
      simp only [distributeEqual] at hq
      have h := List.mem_singleton.mp hq
      rw [h]
      exact dp4_round4 _
    | cons b t' =>
      simp only [distributeEqual] at hq
      rcases List.mem_cons.mp hq with h | h
      · rw [h]
        exact hp
      · exact ih h

theorem distributeEqual_sum {perOrder : ℚ} (hp : Dp4 perOrder) :
    ∀ {r : ℚ} {l : List α}, l ≠ [] → Dp4 r →
      ((distributeEqual perOrder r l).map (fun p => p.2)).sum = r := by
  intro r l
  induction l generalizing r with
  | nil => intro h; exact absurd rfl h
  | cons a t ih =>
    intro _ hr
    cases t with
    | nil => simp [distributeEqual, round4_eq_self hr]
    | cons b t' =>
      have hsub : Dp4 (r - perOrder) := dp4_sub hr hp
      have hrec := ih (List.cons_ne_nil b t') (dp4_round4 (r - perOrder))
      simp only [distributeEqual, List.map_cons, List.sum_cons]
      rw [hrec, round4_eq_self hsub]
      ring

theorem orderAllocations_mem_dp4 {orders : List FulfilledOrder}
    {input : AllocationInput} {e : ℕ × ℚ × String}
    (he : e ∈ orderAllocations orders input) : Dp4 e.2.1 := by
  unfold orderAllocations at he
  split at he
  · have h := List.mem_singleton.mp he
    rw [h]
    exact dp4_round4 _
  · split at he
    · rcases List.mem_map.mp he with ⟨p, hp, rfl⟩
      exact distributeByWeight_mem_dp4 hp
    · rcases List.mem_map.mp he with ⟨p, hp, rfl⟩
      exact distributeEqual_mem_dp4 (dp4_round4 _) hp

theorem orderAllocations_sum {orders : List FulfilledOrder}
    {input : AllocationInput} (h4 : Dp4 input.amount)
    (hord : orders ≠ []) :
    ((orderAllocations orders input).map (fun e => e.2.1)).sum =
      input.amount := by
  unfold orderAllocations
  split
  · simp [round4_eq_self h4]
  · split
    · rw [List.map_map]
      have hmaps : ((fun e : ℕ × ℚ × String => e.2.1) ∘
          (fun p : ℕ × ℚ => (p.1, p.2, "REVENUE_SHARE"))) =
          (fun p : ℕ × ℚ => p.2) := rfl
      rw [hmaps]
      have hne : orders.map (fun o => (o.orderId, o.revenue)) ≠ [] := by
        simpa using hord
      rw [distributeByWeight_sum hne (dp4_round4 _), round4_eq_self h4]
    · rw [List.map_map]
      have hmaps : ((fun e : ℕ × ℚ × String => e.2.1) ∘
          (fun p : ℕ × ℚ => (p.1, p.2, "REVENUE_SHARE"))) =
          (fun p : ℕ × ℚ => p.2) := rfl
      rw [hmaps]
      have hne : orders.map (fun o => o.orderId) ≠ [] := by
        simpa using hord
      rw [distributeEqual_sum (dp4_round4 _) hne (dp4_round4 _),
        round4_eq_self h4]

theorem splitBySkillWeights_mem_dp4 {weightRows : List (String × ℚ)}
    {amt : ℚ} (h4 : Dp4 amt) {p : Option String × ℚ}
    (hp : p ∈ splitBySkillWeights weightRows amt) : Dp4 p.2 := by
  unfold splitBySkillWeights at hp
  split at hp
  · have h := List.mem_singleton.mp hp
    rw [h]
    exact h4
  · split at hp
    · have h := List.mem_singleton.mp hp
      rw [h]
      exact h4
    · rcases List.mem_map.mp hp with ⟨q, hq, rfl⟩
      have hd := distributeByWeight_mem_dp4 hq
      exact hd

theorem splitBySkillWeights_sum {weightRows : List (String × ℚ)} {amt : ℚ}
    (h4 : Dp4 amt) :
    ((splitBySkillWeights weightRows amt).map (fun p => p.2)).sum = amt := by
  unfold splitBySkillWeights
  split
  · simp
  · split
    · simp
    · rename_i hcond
      push_neg at hcond
      have hne : skillWeighted weightRows ≠ [] := by
        intro hnil
        exact hcond.1 (by simp [hnil])
      rw [List.map_map]
      have hmaps : ((fun p : Option String × ℚ => p.2) ∘
          (fun p : String × ℚ => (some p.1, p.2))) =
          (fun p : String × ℚ => p.2) := rfl
      rw [hmaps]
      exact distributeByWeight_sum hne h4

theorem splitAmountBySkill_mem_dp4 {weightRows : List (String × ℚ)}
    {amount : ℚ} {sk : Option String} {p : Option String × ℚ}
    (hp : p ∈ splitAmountBySkill weightRows amount sk) : Dp4 p.2 := by
  unfold splitAmountBySkill at hp
  split at hp
  · simp at hp
  · split at hp
    · split at hp
      · exact splitBySkillWeights_mem_dp4 (dp4_round4 _) hp
      · have h := List.mem_singleton.mp hp
        rw [h]
        exact dp4_round4 _
    · exact splitBySkillWeights_mem_dp4 (dp4_round4 _) hp

theorem splitAmountBySkill_sum {weightRows : List (String × ℚ)}
    {amount : ℚ} {sk : Option String} (h4 : Dp4 amount)
    (hpos : 0 < amount) :
    ((splitAmountBySkill weightRows amount sk).map (fun p => p.2)).sum =
      amount := by
  unfold splitAmountBySkill
  rw [round4_eq_self h4, if_neg (not_le.mpr hpos)]
  cases sk with
  | none => exact splitBySkillWeights_sum h4
  | some sid =>
    by_cases ht : sid.trim = ""
    · simp only [ht, if_pos, reduceIte]
      exact splitBySkillWeights_sum h4
    · simp [ht]

theorem filter_pair_sum {l : List (α × ℚ)} (h : ∀ p ∈ l, 0 ≤ p.2) :
    (((l.filter (fun p => !decide (p.2 ≤ 0))).map (fun p => p.2))).sum =
      (l.map (fun p => p.2)).sum := by
  induction l with
  | nil => rfl
  | cons a t ih =>
    have ha := h a (by simp)
    have ht := ih fun p hp => h p (by simp [hp])
    simp only [List.filter_cons]
    by_cases hz : a.2 ≤ 0
    · have : a.2 = 0 := le_antisymm hz ha
      simp [hz, this, ht]
    · simp [hz, ht]

/-! ## Claim C3 -/


/-- C3 counterexample: a 0.0007 record prorated by revenue share over
twelve orders (revenues 3,…,3,2).  Each of the eleven non-last shares
0.00006 rounds up to 0.0001, the last remainder is −0.0004 and its row is
skipped by the non-positive guard, so the inserted rows sum to 0.0011, not
to the record's amount. -/

theorem c3_counterexample :
    0 < input12.amount ∧ orders12 ≠ [] ∧
    (((allocateInputCost orders12 wEmpty 0 86400 input12).1).map
      (fun row => row.allocatedCost)).sum ≠ input12.amount := by
  apply of_decide_eq_true
  with_unfolding_all rfl

/-- C3 (amended): for a source record with positive 4-decimal amount over a
non-empty eligible order list, whenever every computed per-order share and
every computed per-skill amount is non-negative (in particular whenever the
last order's absorbed remainder is not negative), the generated allocation
rows sum exactly to the record's amount; rows with non-positive computed
amounts are skipped, so a negative last remainder leaks instead. -/

theorem c3_allocation_rows_sum_to_amount
    {orders : List FulfilledOrder} {w : ℕ → List (String × ℚ)}
    {ps pe : Int} {input : AllocationInput}
    (hpos : 0 < input.amount) (h4 : Dp4 input.amount) (hord : orders ≠ [])
    (hShare : ∀ e ∈ orderAllocations orders input, 0 ≤ e.2.1)
    (hSkill : ∀ e ∈ orderAllocations orders input,
      ∀ p ∈ splitAmountBySkill (w e.1) e.2.1 input.skillId, 0 ≤ p.2) :
    (((allocateInputCost orders w ps pe input).1).map
      (fun row => row.allocatedCost)).sum = input.amount := by
  have key : ∀ (l : List (ℕ × ℚ × String)),
      (∀ e ∈ l, Dp4 e.2.1) → (∀ e ∈ l, 0 ≤ e.2.1) →
      (∀ e ∈ l, ∀ p ∈ splitAmountBySkill (w e.1) e.2.1 input.skillId,
        0 ≤ p.2) →
      ((l.flatMap (fun entry =>
        if entry.2.1 ≤ 0 then []
        else
          ((splitAmountBySkill (w entry.1) entry.2.1
              input.skillId).filter (fun sk => !decide (sk.2 ≤ 0))).map
            (fun sk => (entry, sk)))).map
        (fun q => round4 q.2.2)).sum = (l.map (fun e => e.2.1)).sum := by
    intro l
    induction l with
    | nil => intro _ _ _; rfl
    | cons e t ih =>
      intro hdp hnn hsk
      have hdpe := hdp e (by simp)
      have hnne := hnn e (by simp)
      have hske := hsk e (by simp)
      have hdpt : ∀ x ∈ t, Dp4 x.2.1 := fun x hx => hdp x (by simp [hx])
      have hnnt : ∀ x ∈ t, 0 ≤ x.2.1 := fun x hx => hnn x (by simp [hx])
      have hskt : ∀ x ∈ t, ∀ p ∈ splitAmountBySkill (w x.1) x.2.1
          input.skillId, 0 ≤ p.2 := fun x hx => hsk x (by simp [hx])
      rw [List.flatMap_cons, List.map_append, List.sum_append, ih hdpt hnnt hskt,
        List.map_cons, List.sum_cons]
      congr 1
      by_cases hz : e.2.1 ≤ 0
      · rw [if_pos hz]
        have : e.2.1 = 0 := le_antisymm hz hnne
        simp [this]
      · rw [if_neg hz]
        rw [List.map_map]
        have hmaps : ((fun q : (ℕ × ℚ × String) × Option String × ℚ =>
            round4 q.2.2) ∘ (fun sk : Option String × ℚ => (e, sk))) =
            (fun sk : Option String × ℚ => round4 sk.2) := rfl
        rw [hmaps]
        have hmemdp : ∀ sk ∈ (splitAmountBySkill (w e.1) e.2.1
            input.skillId).filter (fun sk => !decide (sk.2 ≤ 0)),
            round4 sk.2 = sk.2 := fun sk hskmem =>
          round4_eq_self
            (splitAmountBySkill_mem_dp4 (List.mem_filter.mp hskmem).1)
        rw [List.map_congr_left hmemdp]
        rw [filter_pair_sum hske]
        exact splitAmountBySkill_sum hdpe (not_le.mp hz)
  unfold allocateInputCost
  rw [if_neg (not_le.mpr hpos)]
  rw [List.map_map]
  have hmaps : ((fun row : CostAllocationRow => row.allocatedCost) ∘
      (fun q : (ℕ × ℚ × String) × Option String × ℚ =>
        { periodStart := ps, periodEnd := pe, orderId := q.1.1,
          sourceType := input.sourceType, sourceId := input.sourceId,
          agentId := input.agentId, skillId := q.2.1,
          allocationBasis := q.1.2.2, allocatedCost := round4 q.2.2,
          currency := input.currency : CostAllocationRow })) =
      (fun q : (ℕ × ℚ × String) × Option String × ℚ => round4 q.2.2) := rfl
  rw [hmaps]
  unfold allocateKept
  rw [key (orderAllocations orders input)
      (fun e he => orderAllocations_mem_dp4 he) hShare hSkill]
  exact orderAllocations_sum h4 hord

/-- C3 witness: the 100.00 record split across three equally-weighted
orders with no skill signal sums exactly to 100.00. -/

theorem c3_witness :
    (((allocateInputCost orders3 wEmpty 0 86400 input100).1).map
      (fun row => row.allocatedCost)).sum = input100.amount :=
  c3_allocation_rows_sum_to_amount
    (by apply of_decide_eq_true; with_unfolding_all rfl)
    ⟨1000000, by norm_num [input100]⟩
    (by apply of_decide_eq_true; with_unfolding_all rfl)
    (by apply of_decide_eq_true; with_unfolding_all rfl)
    (by apply of_decide_eq_true; with_unfolding_all rfl)

/-! ## Engine lemmas -/


theorem filter_idem (p : α → Bool) (l : List α) :
    (l.filter p).filter p = l.filter p := by
  induction l with
  | nil => rfl
  | cons a t ih =>
    by_cases h : p a
    · simp [List.filter_cons, h, ih]
    · simp [List.filter_cons, h, ih]

theorem allocateInputCost_rows_key {orders : List FulfilledOrder}
    {w : ℕ → List (String × ℚ)} {ps pe : Int} {i : AllocationInput}
    {r : CostAllocationRow}
    (hr : r ∈ (allocateInputCost orders w ps pe i).1) :
    r.periodStart = ps ∧ r.periodEnd = pe := by
  unfold allocateInputCost at hr
  split at hr
  · simp at hr
  · rcases List.mem_map.mp hr with ⟨q, _, rfl⟩
    exact ⟨rfl, rfl⟩

theorem genAllocRows_key {db : Db} {ps pe : Int} {r : CostAllocationRow}
    (hr : r ∈ genAllocRows db ps pe) : aKeyB ps pe r = true := by
  rcases List.mem_flatMap.mp hr with ⟨i, _, hri⟩
  rcases allocateInputCost_rows_key hri with ⟨h1, h2⟩
  simp [aKeyB, h1, h2]

theorem distributeByWeight_fst {amount totalW : ℚ} :
    ∀ {r : ℚ} {l : List (α × ℚ)} {p : α × ℚ},
      p ∈ distributeByWeight amount totalW r l → p.1 ∈ l.map Prod.fst := by
  intro r l
  induction l generalizing r with
  | nil => intro p hp; simp [distributeByWeight] at hp
  | cons a t ih =>
    intro p hp
    cases t with
    | nil =>
      rcases a with ⟨a1, a2⟩
      simp only [distributeByWeight] at hp
      have h := List.mem_singleton.mp hp
      rw [h]
      simp
    | cons b t' =>
      rcases a with ⟨a1, a2⟩
      simp only [distributeByWeight] at hp
      rcases List.mem_cons.mp hp with h | h
      · rw [h]
        simp
      · have := ih h
        simp only [List.map_cons]
        exact List.mem_cons_of_mem _ this

theorem distributeEqual_fst {perOrder : ℚ} :
    ∀ {r : ℚ} {l : List α} {q : α × ℚ},
      q ∈ distributeEqual perOrder r l → q.1 ∈ l := by
  intro r l
  induction l generalizing r with
  | nil => intro q hq; simp [distributeEqual] at hq
  | cons a t ih =>
    intro q hq
    cases t with
    | nil =>
      simp only [distributeEqual] at hq
      have h := List.mem_singleton.mp hq
      rw [h]
      simp
    | cons b t' =>
      simp only [distributeEqual] at hq
      rcases List.mem_cons.mp hq with h | h
      · rw [h]
        simp
      · exact List.mem_cons_of_mem _ (ih h)

theorem orderAllocations_fst {orders : List FulfilledOrder}
    {input : AllocationInput} {e : ℕ × ℚ × String}
    (he : e ∈ orderAllocations orders input) :
    e.1 ∈ orders.map (fun o => o.orderId) ∨ input.orderId = some e.1 := by
  unfold orderAllocations at he
  split at he
  · rename_i oid heq
    have h := List.mem_singleton.mp he
    rw [h]
    exact Or.inr heq
  · split at he
    · rcases List.mem_map.mp he with ⟨p, hp, rfl⟩
      left
      have := distributeByWeight_fst hp
      rw [List.map_map] at this
      simpa using this
    · rcases List.mem_map.mp he with ⟨p, hp, rfl⟩
      left
      simpa using distributeEqual_fst hp

theorem allocateInputCost_rows_orderId {orders : List FulfilledOrder}
    {w : ℕ → List (String × ℚ)} {ps pe : Int} {i : AllocationInput}
    {r : CostAllocationRow}
    (hr : r ∈ (allocateInputCost orders w ps pe i).1) :
    r.orderId ∈ orders.map (fun o => o.orderId) ∨
      i.orderId = some r.orderId := by
  unfold allocateInputCost at hr
  split at hr
  · simp at hr
  · rcases List.mem_map.mp hr with ⟨q, hq, rfl⟩
    unfold allocateKept at hq
    rcases List.mem_flatMap.mp hq with ⟨entry, hentry, hqe⟩
    have hq1 : q.1 = entry := by
      by_cases hz : entry.2.1 ≤ 0
      · rw [if_pos hz] at hqe
        simp at hqe
      · rw [if_neg hz] at hqe
        rcases List.mem_map.mp hqe with ⟨sk, _, rfl⟩
        rfl
    rw [hq1]
    exact orderAllocations_fst hentry

theorem genAllocRows_orderId {db : Db} {ps pe : Int} {r : CostAllocationRow}
    (hr : r ∈ genAllocRows db ps pe) :
    r.orderId ∈ (listFulfilledOrders db ps pe).map (fun o => o.orderId) ∨
      ∃ i ∈ allocInputs db ps pe, i.orderId = some r.orderId := by
  rcases List.mem_flatMap.mp hr with ⟨i, hi, hri⟩
  rcases allocateInputCost_rows_orderId hri with h | h
  · exact Or.inl h
  · exact Or.inr ⟨i, hi, h⟩

theorem payrollGroups_mem {periodAllocs : List CostAllocationRow}
    {g : (ℕ × String) × ℚ} (hg : g ∈ payrollGroups periodAllocs) :
    ∃ a ∈ periodAllocs, a.orderId = g.1.1 := by
  unfold payrollGroups at hg
  rcases List.mem_filterMap.mp hg with ⟨k, hk, hgk⟩
  have hkey : g.1 = k := by
    by_cases hz : round4 (((periodAllocs.filter (fun a =>
        a.orderId == k.1 && a.currency == k.2)).map
        (fun a => a.allocatedCost)).sum) ≤ 0
    · rw [if_pos hz] at hgk
      cases hgk
    · rw [if_neg hz] at hgk
      cases hgk
      rfl
  have hk' := mem_dedup (mem_sortBy hk)
  rcases List.mem_map.mp hk' with ⟨a, ha, hak⟩
  refine ⟨a, ha, ?_⟩
  rw [hkey, ← hak]

theorem periodGroups_orderIds {db : Db} {ps pe : Int}
    (hdirect : (allocInputs db ps pe).all
      (fun i => match i.orderId with
        | some o => ((listFulfilledOrders db ps pe).map
            (fun x => x.orderId)).contains o
        | none => true) = true)
    {g : (ℕ × String) × ℚ} (hg : g ∈ periodGroups db ps pe) :
    ((listFulfilledOrders db ps pe).map (fun o => o.orderId)).contains g.1.1
      = true := by
  rcases payrollGroups_mem hg with ⟨a, ha, hao⟩
  have ha' := List.mem_filter.mp ha
  rcases List.mem_append.mp ha'.1 with hmem | hmem
  · have hnot := (List.mem_filter.mp hmem).2
    rw [ha'.2] at hnot
    cases hnot
  · rcases genAllocRows_orderId hmem with h | ⟨i, hi, hio⟩
    · rw [← hao]
      exact List.elem_eq_true_of_mem h
    · have hall := List.all_eq_true.mp hdirect i hi
      rw [hio] at hall
      rw [← hao]
      exact hall

theorem payrollJournals_deleted {ps pe : Int} {settle : Bool}
    {orderIds : List ℕ} {groups : List ((ℕ × String) × ℚ)}
    (hg : ∀ g ∈ groups, orderIds.contains g.1.1 = true) :
    ∀ j ∈ payrollJournals ps pe settle groups,
      jDeleteB ps pe orderIds j = true := by
  intro j hj
  rcases List.mem_flatMap.mp hj with ⟨g, hgmem, hjg⟩
  have hcont : g.1.1 ∈ orderIds := List.mem_of_elem_eq_true (hg g hgmem)
  rcases List.mem_append.mp hjg with h | h
  · rcases List.mem_cons.mp h with h | h
    · rw [h]
      simp [jDeleteB, hcont]
    · have h' := List.mem_singleton.mp h
      rw [h']
      simp [jDeleteB, hcont]
  · by_cases hs : settle
    · rw [if_pos hs] at h
      rcases List.mem_cons.mp h with h | h
      · rw [h]
        simp [jDeleteB, hcont]
      · have h' := List.mem_singleton.mp h
        rw [h']
        simp [jDeleteB, hcont]
    · rw [if_neg hs] at h
      cases h

theorem payrollObligations_deleted {ps pe : Int} {settle : Bool}
    {orderIds : List ℕ} {groups : List ((ℕ × String) × ℚ)}
    (hg : ∀ g ∈ groups, orderIds.contains g.1.1 = true) :
    ∀ ob ∈ payrollObligations ps pe settle groups,
      obDeleteB ps pe orderIds ob = true := by
  intro ob hob
  rcases List.mem_map.mp hob with ⟨g, hgmem, rfl⟩
  simp [obDeleteB, List.mem_of_elem_eq_true (hg g hgmem)]

theorem reconOf_key {db : Db} {ps pe : Int} :
    rKeyB ps pe (reconOf db ps pe) = true := by
  simp [rKeyB, reconOf, reconFor]

/-- Re-running the engine body over the state it just produced changes
nothing, provided every explicit order reference among the window's source
inputs is itself fulfilled inside the window. -/

theorem runEngine_stable {db : Db} {ps pe : Int} {settle : Bool}
    (hord : (listFulfilledOrders db ps pe).isEmpty = false)
    (hdirect : (allocInputs db ps pe).all
      (fun i => match i.orderId with
        | some o => ((listFulfilledOrders db ps pe).map
            (fun x => x.orderId)).contains o
        | none => true) = true) :
    runEngine (runEngine db ps pe settle).1 ps pe settle =
      runEngine db ps pe settle := by
  have hids : ((listFulfilledOrders db ps pe).map
      (fun o => o.orderId)).isEmpty = false := by
    rcases h : listFulfilledOrders db ps pe with _ | ⟨a, t⟩
    · rw [h] at hord
      cases hord
    · rfl
  have hDelAllocs : delAllocs (runEngine db ps pe settle).1 ps pe =
      delAllocs db ps pe := by
    have h1 : delAllocs (runEngine db ps pe settle).1 ps pe =
        (delAllocs db ps pe ++ genAllocRows db ps pe).filter
          (fun a => !aKeyB ps pe a) := rfl
    rw [h1, List.filter_append]
    rw [show (delAllocs db ps pe).filter (fun a => !aKeyB ps pe a) =
      delAllocs db ps pe from filter_idem _ db.allocations]
    rw [filter_not_of_all (aKeyB ps pe) (fun r hr => genAllocRows_key hr)]
    rw [List.append_nil]
  have hPG : periodGroups (runEngine db ps pe settle).1 ps pe =
      periodGroups db ps pe := by
    have h1 : periodGroups (runEngine db ps pe settle).1 ps pe =
        payrollGroups ((delAllocs (runEngine db ps pe settle).1 ps pe ++
          genAllocRows db ps pe).filter (aKeyB ps pe)) := rfl
    rw [h1, hDelAllocs]
    rfl
  have hRec : reconOf (runEngine db ps pe settle).1 ps pe =
      reconOf db ps pe := by
    have h1 : reconOf (runEngine db ps pe settle).1 ps pe =
        reconFor ps pe (listFulfilledOrders db ps pe).length
          (sourceTotalOf db ps pe) (allocatedTotalOf db ps pe)
          (journalTotalOf
            (periodGroups (runEngine db ps pe settle).1 ps pe)) := rfl
    rw [h1, hPG]
    rfl
  have hGIds : ∀ g ∈ periodGroups db ps pe,
      ((listFulfilledOrders db ps pe).map (fun o => o.orderId)).contains
        g.1.1 = true := fun g hg => periodGroups_orderIds hdirect hg
  have hDelJ : delJournals (runEngine db ps pe settle).1 ps pe
      ((listFulfilledOrders db ps pe).map (fun o => o.orderId)) =
      delJournals db ps pe
        ((listFulfilledOrders db ps pe).map (fun o => o.orderId)) := by
    have h1 : delJournals (runEngine db ps pe settle).1 ps pe
        ((listFulfilledOrders db ps pe).map (fun o => o.orderId)) =
        (delJournals db ps pe
            ((listFulfilledOrders db ps pe).map (fun o => o.orderId)) ++
          payrollJournals ps pe settle (periodGroups db ps pe)).filter
          (fun j => !jDeleteB ps pe
            ((listFulfilledOrders db ps pe).map (fun o => o.orderId)) j) :=
      rfl
    rw [h1, List.filter_append]
    rw [show (delJournals db ps pe ((listFulfilledOrders db ps pe).map
        (fun o => o.orderId))).filter (fun j => !jDeleteB ps pe
        ((listFulfilledOrders db ps pe).map (fun o => o.orderId)) j) =
      delJournals db ps pe ((listFulfilledOrders db ps pe).map
        (fun o => o.orderId)) from filter_idem _ db.journals]
    rw [filter_not_of_all
      (jDeleteB ps pe ((listFulfilledOrders db ps pe).map
        (fun o => o.orderId)))
      (payrollJournals_deleted hGIds)]
    rw [List.append_nil]
  have hDelAps : delAps (runEngine db ps pe settle).1 ps pe
      ((listFulfilledOrders db ps pe).map (fun o => o.orderId)) =
      delAps db ps pe
        ((listFulfilledOrders db ps pe).map (fun o => o.orderId)) := by
    unfold delAps
    rw [hids]
    simp only [Bool.false_eq_true, if_false]
    have h1 : (runEngine db ps pe settle).1.apObligations =
        delAps db ps pe
            ((listFulfilledOrders db ps pe).map (fun o => o.orderId)) ++
          payrollObligations ps pe settle (periodGroups db ps pe) := rfl
    rw [h1, List.filter_append]
    unfold delAps
    rw [hids]
    simp only [Bool.false_eq_true, if_false]
    rw [show (db.apObligations.filter (fun ob => !obDeleteB ps pe
        ((listFulfilledOrders db ps pe).map (fun o => o.orderId)) ob)).filter
        (fun ob => !obDeleteB ps pe ((listFulfilledOrders db ps pe).map
          (fun o => o.orderId)) ob) =
      db.apObligations.filter (fun ob => !obDeleteB ps pe
        ((listFulfilledOrders db ps pe).map (fun o => o.orderId)) ob) from
      filter_idem _ db.apObligations]
    rw [filter_not_of_all
      (obDeleteB ps pe ((listFulfilledOrders db ps pe).map
        (fun o => o.orderId)))
      (payrollObligations_deleted hGIds)]
    rw [List.append_nil]
  have hDelRec : delRecons (runEngine db ps pe settle).1 ps pe =
      delRecons db ps pe := by
    have h1 : delRecons (runEngine db ps pe settle).1 ps pe =
        (delRecons db ps pe ++ [reconOf db ps pe]).filter
          (fun r => !rKeyB ps pe r) := rfl
    rw [h1, List.filter_append]
    rw [show (delRecons db ps pe).filter (fun r => !rKeyB ps pe r) =
      delRecons db ps pe from filter_idem _ db.recons]
    have h2 : ([reconOf db ps pe].filter (fun r => !rKeyB ps pe r)) = [] :=
      filter_not_of_all (rKeyB ps pe)
        (fun r hr => by
          have := List.mem_singleton.mp hr
          rw [this]
          exact reconOf_key)
    rw [h2, List.append_nil]
  show ({ (runEngine db ps pe settle).1 with
      journals := delJournals (runEngine db ps pe settle).1 ps pe
          ((listFulfilledOrders (runEngine db ps pe settle).1 ps pe).map
            (fun o => o.orderId)) ++
        payrollJournals ps pe settle
          (periodGroups (runEngine db ps pe settle).1 ps pe),
      allocations := delAllocs (runEngine db ps pe settle).1 ps pe ++
        genAllocRows (runEngine db ps pe settle).1 ps pe,
      apObligations := delAps (runEngine db ps pe settle).1 ps pe
          ((listFulfilledOrders (runEngine db ps pe settle).1 ps pe).map
            (fun o => o.orderId)) ++
        payrollObligations ps pe settle
          (periodGroups (runEngine db ps pe settle).1 ps pe),
      recons := delRecons (runEngine db ps pe settle).1 ps pe ++
        [reconOf (runEngine db ps pe settle).1 ps pe] },
    respFor ps pe
      (listFulfilledOrders (runEngine db ps pe settle).1 ps pe).length
      (reconOf (runEngine db ps pe settle).1 ps pe)) =
    runEngine db ps pe settle
  have hLFO : listFulfilledOrders (runEngine db ps pe settle).1 ps pe =
      listFulfilledOrders db ps pe := rfl
  have hGen : genAllocRows (runEngine db ps pe settle).1 ps pe =
      genAllocRows db ps pe := rfl
  rw [hLFO, hGen, hDelAllocs, hPG, hRec, hDelJ, hDelAps, hDelRec]
  rfl

/-! ## Claims C7, C8 and C10 -/


/-- C7 counterexample: the period's source data and fulfilled orders are
unchanged between two runs, and the second run reproduces the allocation
rows and the reconciliation record — but the payroll journal lines and AP
obligations of a DIRECT_ORDER allocation to an order fulfilled outside the
window are not matched by the period delete (which is scoped to the
window's eligible order ids), so they are created a second time instead of
being regenerated in place. -/

theorem c7_counterexample :
    (engineOkDb dbX reqW).orders = dbX.orders ∧
    (engineOkDb dbX reqW).tokenRows = dbX.tokenRows ∧
    (engineOkDb dbX reqW).cloudRows = dbX.cloudRows ∧
    (engineOkDb dbX reqW).subRows = dbX.subRows ∧
    (engineOkDb (engineOkDb dbX reqW) reqW).allocations =
      (engineOkDb dbX reqW).allocations ∧
    (engineOkDb (engineOkDb dbX reqW) reqW).recons =
      (engineOkDb dbX reqW).recons ∧
    (engineOkDb (engineOkDb dbX reqW) reqW).journals ≠
      (engineOkDb dbX reqW).journals ∧
    (engineOkDb (engineOkDb dbX reqW) reqW).apObligations ≠
      (engineOkDb dbX reqW).apObligations := by
  apply of_decide_eq_true
  with_unfolding_all rfl

/-- C7 (amended): provided every explicit order reference among the
window's source inputs is itself fulfilled inside the window, re-running
`allocate_costs` over the state produced by a successful run is a complete
no-op: it returns the same state and the same response, so the allocation
rows, journal lines, AP obligations and the reconciliation record are all
identical. -/

theorem c7_rerun_idempotent {db : Db} {req : AllocateReq} {d : Db}
    {r : AllocateResp}
    (hdirect : (allocInputs db req.periodStart req.periodEnd).all
      (fun i => match i.orderId with
        | some o => ((listFulfilledOrders db req.periodStart
            req.periodEnd).map (fun x => x.orderId)).contains o
        | none => true) = true)
    (h1 : allocateCosts db req = .ok d r) :
    allocateCosts d req = .ok d r := by
  unfold allocateCosts at h1 ⊢
  split at h1
  · cases h1
  · split at h1
    · cases h1
    · split at h1
      · cases h1
      · rename_i hna hnp hne
        injection h1 with hd hr
        subst hd
        subst hr
        rw [if_neg hna, if_neg hnp]
        have hL : listFulfilledOrders
            (runEngine db req.periodStart req.periodEnd
              (req.settlePayrollAp.getD true)).1 req.periodStart
            req.periodEnd =
            listFulfilledOrders db req.periodStart req.periodEnd := rfl
        rw [hL, if_neg hne]
        have hord : (listFulfilledOrders db req.periodStart
            req.periodEnd).isEmpty = false := by
          revert hne
          cases (listFulfilledOrders db req.periodStart
            req.periodEnd).isEmpty <;> simp
        rw [runEngine_stable hord hdirect]

/-- C7 witness: the amended theorem applied to the concrete single-order,
single-token-row fixture. -/

theorem c7_witness :
    allocateCosts (engineOkDb dbW reqW) reqW =
      .ok (engineOkDb dbW reqW) (engineOkResp dbW reqW) :=
  @c7_rerun_idempotent dbW reqW (engineOkDb dbW reqW) (engineOkResp dbW reqW)
    (by apply of_decide_eq_true; with_unfolding_all rfl)
    (by apply of_decide_eq_true; with_unfolding_all rfl)

/-- C8 counterexample: a period with source total 3 and journal total 2
stores variance_pct = 33.3333 — the percentage rounded to 4 decimal
places — which is neither the raw ratio 1/3 the claim states nor the
exact percentage 100/3. -/
theorem c8_counterexample :
    (reconFor 0 100 1 3 3 2).variancePct ≠ |(3 : ℚ) - 2| / 3 ∧
    (reconFor 0 100 1 3 3 2).variancePct ≠ |(3 : ℚ) - 2| / 3 * 100 ∧
    (reconFor 0 100 1 3 3 2).variancePct =
      round4 (|(3 : ℚ) - 2| / 3 * 100) := by
  refine ⟨?_, ?_, ?_⟩
  · apply of_decide_eq_true
    with_unfolding_all rfl
  · apply of_decide_eq_true
    with_unfolding_all rfl
  · with_unfolding_all rfl

/-- C8 (amended): the reconciliation record of an allocation run satisfies
the formula: keyed by the period bounds; variance percentage 0 and status
NO_SOURCE_COSTS when the source total is zero; otherwise the stored
percentage is `round4(|source − journal| / source · 100)` — exactly
`|source − journal| / source` expressed in percent whenever that value
needs no rounding — and the status is BALANCED precisely when it is at most
the 0.5 % threshold, OUT_OF_TOLERANCE otherwise. -/

theorem c8_reconciliation_formula {ps pe : Int} {n : ℕ} {s a j : ℚ}
    (hs4 : Dp4 s) (hj4 : Dp4 j) :
    (reconFor ps pe n s a j).periodStart = ps ∧
    (reconFor ps pe n s a j).periodEnd = pe ∧
    (s = 0 → (reconFor ps pe n s a j).variancePct = 0 ∧
      (reconFor ps pe n s a j).status = "NO_SOURCE_COSTS") ∧
    (0 < s → (reconFor ps pe n s a j).variancePct =
        round4 (|s - j| / s * 100) ∧
      ((reconFor ps pe n s a j).status = "BALANCED" ↔
        (reconFor ps pe n s a j).variancePct ≤
          finopsVarianceThresholdPct) ∧
      ((reconFor ps pe n s a j).status = "OUT_OF_TOLERANCE" ↔
        ¬((reconFor ps pe n s a j).variancePct ≤
          finopsVarianceThresholdPct))) ∧
    (0 < s → round4 (|s - j| / s * 100) = |s - j| / s * 100 →
      (reconFor ps pe n s a j).variancePct = |s - j| / s * 100) := by
  have hss : round4 s = s := round4_eq_self hs4
  have hjj : round4 j = j := round4_eq_self hj4
  have hva : round4 |round4 s - round4 j| = |s - j| := by
    rw [hss, hjj]
    exact round4_eq_self (dp4_abs (dp4_sub hs4 hj4))
  have hpct : ∀ h : 0 < s, (reconFor ps pe n s a j).variancePct =
      round4 (|s - j| / s * 100) := by
    intro hpos
    have hlt : 0 < round4 s := by rw [hss]; exact hpos
    simp only [reconFor]
    rw [if_pos hlt, hva, hss]
  refine ⟨rfl, rfl, ?_, ?_, ?_⟩
  · intro h0
    have hz : round4 s = 0 := by rw [hss, h0]
    constructor
    · simp only [reconFor]
      rw [if_neg (by rw [hz]; exact lt_irrefl 0)]
    · simp only [reconFor]
      rw [if_pos hz]
  · intro hpos
    have hlt : 0 < round4 s := by rw [hss]; exact hpos
    have hne : ¬(round4 s = 0) := by rw [hss]; exact ne_of_gt hpos
    have hp' : (reconFor ps pe n s a j).variancePct =
        round4 (|s - j| / s * 100) := hpct hpos
    have hst : (reconFor ps pe n s a j).status =
        if round4 (|s - j| / s * 100) ≤ finopsVarianceThresholdPct
        then "BALANCED" else "OUT_OF_TOLERANCE" := by
      simp only [reconFor]
      rw [if_neg hne, if_pos hlt, hva, hss]
    refine ⟨hp', ?_, ?_⟩
    · rw [hst, hp']
      by_cases hv : round4 (|s - j| / s * 100) ≤ finopsVarianceThresholdPct
      · rw [if_pos hv]
        exact iff_of_true rfl hv
      · rw [if_neg hv]
        exact iff_of_false (by decide) hv
    · rw [hst, hp']
      by_cases hv : round4 (|s - j| / s * 100) ≤ finopsVarianceThresholdPct
      · rw [if_pos hv]
        exact iff_of_false (by decide) (not_not_intro hv)
      · rw [if_neg hv]
        exact iff_of_true rfl hv
  · intro hpos hx
    rw [hpct hpos, hx]

/-- C8 witness: a balanced period with source total = journal total = 10. -/

theorem c8_witness :
    (reconFor 0 100 1 10 10 10).periodStart = 0 ∧
    (reconFor 0 100 1 10 10 10).periodEnd = 100 ∧
    ((10 : ℚ) = 0 → (reconFor 0 100 1 10 10 10).variancePct = 0 ∧
      (reconFor 0 100 1 10 10 10).status = "NO_SOURCE_COSTS") ∧
    ((0 : ℚ) < 10 → (reconFor 0 100 1 10 10 10).variancePct =
        round4 (|(10 : ℚ) - 10| / 10 * 100) ∧
      ((reconFor 0 100 1 10 10 10).status = "BALANCED" ↔
        (reconFor 0 100 1 10 10 10).variancePct ≤
          finopsVarianceThresholdPct) ∧
      ((reconFor 0 100 1 10 10 10).status = "OUT_OF_TOLERANCE" ↔
        ¬((reconFor 0 100 1 10 10 10).variancePct ≤
          finopsVarianceThresholdPct))) ∧
    ((0 : ℚ) < 10 → round4 (|(10 : ℚ) - 10| / 10 * 100) =
        |(10 : ℚ) - 10| / 10 * 100 →
      (reconFor 0 100 1 10 10 10).variancePct =
        |(10 : ℚ) - 10| / 10 * 100) :=
  c8_reconciliation_formula ⟨100000, by norm_num⟩ ⟨100000, by norm_num⟩

/-- C10: a window containing no FULFILLED order is rejected with the
`no fulfilled orders found in the requested period` error before any
deletion, insertion or upsert runs — the transaction rolls back, modelled
here by the error result carrying no state. -/

theorem c10_no_fulfilled_orders_rejected {db : Db} {req : AllocateReq}
    (ha : req.actorValid = true) (hp : req.periodStart < req.periodEnd)
    (hord : listFulfilledOrders db req.periodStart req.periodEnd = []) :
    allocateCosts db req =
      .err "no fulfilled orders found in the requested period" := by
  unfold allocateCosts
  rw [ha]
  simp only [Bool.not_true, Bool.false_eq_true, if_false]
  rw [if_neg (not_le.mpr hp), hord]
  rfl

/-- C10 witness: a window with a source token row inside it but whose only
order is fulfilled outside it. -/

theorem c10_witness :
    allocateCosts dbEmptyWindow reqW =
      .err "no fulfilled orders found in the requested period" :=
  c10_no_fulfilled_orders_rejected rfl
    (by apply of_decide_eq_true; with_unfolding_all rfl)
    (by apply of_decide_eq_true; with_unfolding_all rfl)

/-- Reducing `settleApInternal` to `settleBody` once the actor and
expected-source-type guards pass. -/

theorem settleApInternal_reduces {expected : Option String} {ns : String}
    {req : SettleReq} {acct : ApAccount}
    (hact : req.actorValid = true)
    (hexp : expected = none ∨ expected = some acct.sourceType)
    (a : ApAccount) (hsrc : a.sourceType = acct.sourceType) :
    settleApInternal expected ns req (some a) = settleBody ns req a := by
  unfold settleApInternal
  rw [hact]
  simp only [Bool.not_true, Bool.false_eq_true, if_false]
  rcases hexp with h | h
  · rw [h]
  · rw [h]
    show (if a.sourceType ≠ acct.sourceType then
        SettleResult.err 400 ("ap_obligation is not " ++ acct.sourceType)
      else settleBody ns req a) = settleBody ns req a
    rw [if_neg (fun hne => hne hsrc)]

/-- `settleBody` takes the pay branch when the balance exceeds the
tolerance. -/

theorem settleBody_pays {ns : String} {req : SettleReq} {acct : ApAccount}
    {liab : String}
    (hliab : apLiabilityAccountForSourceType acct.sourceType = some liab)
    (hnc : ¬acct.status = "CANCELLED")
    (hbal : apEpsilon < currentApBalance acct) :
    settleBody ns req acct = settlePay ns req acct liab := by
  unfold settleBody
  split
  · next heq => rw [hliab] at heq; cases heq
  · next l heq =>
    rw [hliab] at heq
    injection heq with hl
    subst hl
    rw [if_neg hnc, if_neg (fun hand => absurd hbal (not_lt.mpr hand.2))]

/-- C9 counterexample: an OPEN obligation whose outstanding balance equals
the 0.0001 tolerance. The first settle call posts no journal pair yet
reports a non-zero settled amount; the second call reports
already_settled = true with outstanding_after = 0.0001, not 0. -/

theorem c9_counterexample :
    journalsOf (settleApInternal (some "AUTONOMY_PAYROLL")
      "PAYROLL_AP_RETRY" settleReq9 (some apOb9)) = [] ∧
    (respOf (settleApInternal (some "AUTONOMY_PAYROLL")
      "PAYROLL_AP_RETRY" settleReq9 (some apOb9))).settledAmount =
      1 / 10 ^ 4 ∧
    (acctOf (settleApInternal (some "AUTONOMY_PAYROLL")
      "PAYROLL_AP_RETRY" settleReq9 (some apOb9)) apOb9).status =
      "SETTLED" ∧
    (respOf (settleApInternal (some "AUTONOMY_PAYROLL")
      "PAYROLL_AP_RETRY" settleReq9
      (some (acctOf (settleApInternal (some "AUTONOMY_PAYROLL")
        "PAYROLL_AP_RETRY" settleReq9 (some apOb9))
          apOb9)))).alreadySettled = true ∧
    (respOf (settleApInternal (some "AUTONOMY_PAYROLL")
      "PAYROLL_AP_RETRY" settleReq9
      (some (acctOf (settleApInternal (some "AUTONOMY_PAYROLL")
        "PAYROLL_AP_RETRY" settleReq9 (some apOb9))
          apOb9)))).outstandingAfter ≠ 0 := by
  refine ⟨?_, ?_, ?_, ?_, ?_⟩
  · with_unfolding_all rfl
  · with_unfolding_all rfl
  · with_unfolding_all rfl
  · with_unfolding_all rfl
  · apply of_decide_eq_true
    with_unfolding_all rfl

/-- C9 (amended): when the obligation's rounded outstanding balance
exceeds the 0.0001 tolerance, settling is idempotent: the first call pays
the full outstanding balance (the latest subledger balance_after), posts
the balancing liability/cash journal pair and the PAYMENT_POSTED
subledger entry, marks the obligation SETTLED and reports
outstanding_after = 0; the second call is a no-op that posts nothing and
reports already_settled = true with settled amount 0 and
outstanding_after = 0. -/

theorem c9_settle_ap_idempotent {expected : Option String} {ns : String}
    {req : SettleReq} {acct : ApAccount} {liab : String}
    (hact : req.actorValid = true)
    (hexp : expected = none ∨ expected = some acct.sourceType)
    (hliab : apLiabilityAccountForSourceType acct.sourceType = some liab)
    (hnc : ¬acct.status = "CANCELLED")
    (hbal : apEpsilon < currentApBalance acct) :
    settleApInternal expected ns req (some acct) =
      .ok (settledAcct ns req acct) (apSettleJournals ns req acct liab)
        { obId := acct.obId, orderId := acct.orderId,
          sourceType := acct.sourceType,
          previousStatus := acct.status, status := "SETTLED",
          settledAmount := currentApBalance acct,
          outstandingBefore := currentApBalance acct,
          outstandingAfter := 0, alreadySettled := false } ∧
    (settledAcct ns req acct).status = "SETTLED" ∧
    (settledAcct ns req acct).entries =
      acct.entries ++ [apPaymentEntry ns req acct] ∧
    settleApInternal expected ns req (some (settledAcct ns req acct)) =
      .ok (settledAcct ns req acct) []
        { obId := acct.obId, orderId := acct.orderId,
          sourceType := acct.sourceType,
          previousStatus := "SETTLED", status := "SETTLED",
          settledAmount := 0, outstandingBefore := 0,
          outstandingAfter := 0, alreadySettled := true } := by
  have hcb4 : Dp4 (currentApBalance acct) := dp4_round4 _
  have hr4 : round4 (currentApBalance acct) = currentApBalance acct :=
    round4_eq_self hcb4
  have hbal' : apEpsilon < round4 (currentApBalance acct) := by
    rw [hr4]; exact hbal
  have hsa : settledAcct ns req acct =
      { acct with
          status := "SETTLED",
          entries := acct.entries ++ [apPaymentEntry ns req acct] } := by
    unfold settledAcct
    rw [if_pos hbal']
  have hafter : currentApBalance (settledAcct ns req acct) = 0 := by
    rw [hsa]
    show round4 (((acct.entries ++
      [apPaymentEntry ns req acct]).getLast?.map
        (fun e => e.balanceAfter)).getD 0) = 0
    rw [List.getLast?_concat]
    exact round4_eq_self dp4_zero
  have hsrc2 : (settledAcct ns req acct).sourceType = acct.sourceType := by
    rw [hsa]
  have hst2 : (settledAcct ns req acct).status = "SETTLED" := by
    rw [hsa]
  refine ⟨?_, hst2, ?_, ?_⟩
  · rw [settleApInternal_reduces hact hexp acct rfl,
      settleBody_pays hliab hnc hbal]
    unfold settlePay
    rw [if_pos hbal', hr4, hr4, hafter, round4_eq_self dp4_zero]
  · rw [hsa]
  · rw [settleApInternal_reduces hact hexp (settledAcct ns req acct) hsrc2]
    unfold settleBody
    split
    · next heq =>
      rw [hsrc2, hliab] at heq
      cases heq
    · next l heq =>
      rw [hsrc2, hliab] at heq
      injection heq with hl
      subst hl
      rw [if_neg (by rw [hst2]; decide),
        if_pos ⟨hst2, by
          rw [hafter]
          apply of_decide_eq_true
          with_unfolding_all rfl⟩]
      rw [hafter, round4_eq_self dp4_zero, round4_eq_self dp4_zero,
        hst2, hsa]

/-- C9 witness: the amended theorem applied to an OPEN payroll obligation
with outstanding balance 12.50. -/

theorem c9_witness :
    settleApInternal (some "AUTONOMY_PAYROLL") "PAYROLL_AP_RETRY"
        settleReqW (some apObW) =
      .ok (settledAcct "PAYROLL_AP_RETRY" settleReqW apObW)
        (apSettleJournals "PAYROLL_AP_RETRY" settleReqW apObW "2300")
        { obId := apObW.obId, orderId := apObW.orderId,
          sourceType := apObW.sourceType,
          previousStatus := apObW.status, status := "SETTLED",
          settledAmount := currentApBalance apObW,
          outstandingBefore := currentApBalance apObW,
          outstandingAfter := 0, alreadySettled := false } ∧
    (settledAcct "PAYROLL_AP_RETRY" settleReqW apObW).status =
      "SETTLED" ∧
    (settledAcct "PAYROLL_AP_RETRY" settleReqW apObW).entries =
      apObW.entries ++
        [apPaymentEntry "PAYROLL_AP_RETRY" settleReqW apObW] ∧
    settleApInternal (some "AUTONOMY_PAYROLL") "PAYROLL_AP_RETRY"
        settleReqW
        (some (settledAcct "PAYROLL_AP_RETRY" settleReqW apObW)) =
      .ok (settledAcct "PAYROLL_AP_RETRY" settleReqW apObW) []
        { obId := apObW.obId, orderId := apObW.orderId,
          sourceType := apObW.sourceType,
          previousStatus := "SETTLED", status := "SETTLED",
          settledAmount := 0, outstandingBefore := 0,
          outstandingAfter := 0, alreadySettled := true } :=
  @c9_settle_ap_idempotent (some "AUTONOMY_PAYROLL") "PAYROLL_AP_RETRY"
    settleReqW apObW "2300" rfl (Or.inr rfl) rfl (by decide)
    (by apply of_decide_eq_true; with_unfolding_all rfl)

end Zavora

